import Mathlib

/-!
Verification of the WebSocket authentication / request-correlation protocol of the
auction application.  The definitions below are a shallow embedding of
`src/server/src/services/nitroliteRPC.ts` (class `NitroliteRPCClient`) and of the
challenge-signing closure in `src/src/hooks/useClearNodeConnection.ts`
(`createEIP712SigningFunction`).  JavaScript runtime values appearing in messages are
modelled by the inductive `JVal`; the JavaScript value `undefined` is modelled by
`Option JVal` with `none` standing for `undefined`.
-/

namespace NitroliteRPC

/-- JSON-decodable JavaScript values, as they appear in parsed wire messages. -/
inductive JVal
  | null
  | bool (b : Bool)
  | num (n : Int)
  | str (s : String)
  | arr (xs : List JVal)
  | obj (fields : List (String × JVal))

/-- JavaScript truthiness of a defined value. -/
def JVal.truthy : JVal → Bool
  | .null => false
  | .bool b => b
  | .num n => n != 0
  | .str s => s != ""
  | .arr _ => true
  | .obj _ => true

/-- Truthiness of a possibly-`undefined` value (`none` is `undefined`, falsy). -/
def jsTruthy : Option JVal → Bool
  | none => false
  | some v => v.truthy

/-- JavaScript property access `v.k`: a field lookup on an object, `undefined`
(i.e. `none`) on every non-object value.  The callers below only perform this
access in positions where the JavaScript code cannot throw. -/
def jsField : JVal → String → Option JVal
  | .obj fs, k => fs.lookup k
  | _, _ => none

/-- Property access on a possibly-`undefined` value; used only where the source
guards the access (by `&&` short-circuiting or optional chaining). -/
def jsFieldU (v : Option JVal) (k : String) : Option JVal :=
  v.bind (fun w => jsField w k)

/-- JavaScript `a || b`: the left operand when truthy, otherwise the right. -/
def jsOr (a b : Option JVal) : Option JVal :=
  if jsTruthy a then a else b

/-- The character `[` (structural delimiter the signing guard checks for). -/
def openBracket : Char := '['

/-- The character with code 0x7b (opening curly brace, the other delimiter). -/
def openBrace : Char := '\x7b'

/-- The argument of `extractChallenge` / the signing functions, classified the way
the JavaScript code branches on it: an array, a string together with the result of
`JSON.parse` on it (`none` when parsing throws), a plain object, or any other value
(number, boolean, `null`, `undefined`). -/
inductive ExtractInput
  | arrIn (xs : List JVal)
  | strIn (raw : String) (parsed : Option JVal)
  | objIn (fields : List (String × JVal))
  | otherIn

/-- Shallow embedding of `NitroliteRPCClient.extractChallenge`
(`src/server/src/services/nitroliteRPC.ts` lines 190-232).  The result is the final
value of the JavaScript variable `challengeUUID` (initialised to `""`); `none`
models the case where the code assigns `undefined` to it.  In the string branch a
parse failure, or a parse result of `null` (on which the access `parsed.res`
throws), lands in the `catch` block, which assigns the raw string itself. -/
def extractChallenge : ExtractInput → Option JVal
  | .arrIn xs =>
    -- if (data.length >= 3 && Array.isArray(data[2]) && data[2].length > 0)
    if 3 ≤ xs.length then
      match xs[2]? with
      | some (JVal.arr ys) =>
        if 0 < ys.length then
          match ys[0]? with
          | some challengeObject =>
            -- if (challengeObject && challengeObject.challenge)
            if challengeObject.truthy then
              match jsField challengeObject "challenge" with
              | some c => if c.truthy then some c else some (.str "")
              | none => some (.str "")
            else some (.str "")
          | none => some (.str "")
        else some (.str "")
      | _ => some (.str "")
    else some (.str "")
  | .strIn raw none => some (.str raw)
  | .strIn raw (some JVal.null) => some (.str raw)
  | .strIn _ (some parsed) =>
    match jsField parsed "res" with
    | some (JVal.arr res) =>
      -- if (parsed.res && Array.isArray(parsed.res)); arrays are always truthy
      match res[1]? with
      | some (JVal.str tag) =>
        if tag = "auth_challenge" then
          if jsTruthy (res[2]?) then
            jsOr (jsFieldU (res[2]?) "challenge_message")
                 (jsFieldU (res[2]?) "challenge")
          else some (.str "")
        else if tag = "auth_verify" then
          match res[2]? with
          | some (JVal.arr zs) =>
            if jsTruthy (zs[0]?) then jsFieldU (zs[0]?) "challenge"
            else some (.str "")
          | _ => some (.str "")
        else some (.str "")
      | _ => some (.str "")
    | _ =>
      -- else if (Array.isArray(parsed) && parsed.length >= 3 && Array.isArray(parsed[2]))
      match parsed with
      | .arr ps =>
        if 3 ≤ ps.length then
          match ps[2]? with
          | some (JVal.arr qs) =>
            -- challengeUUID = challengeObj?.challenge || "";
            jsOr (jsFieldU (qs[0]?) "challenge") (some (.str ""))
          | _ => some (.str "")
        else some (.str "")
      | _ => some (.str "")
  | .objIn fs =>
    -- challengeUUID = challengeObj.challenge || challengeObj.challenge_message || "";
    jsOr (jsOr (jsField (.obj fs) "challenge") (jsField (.obj fs) "challenge_message"))
         (some (.str ""))
  | .otherIn => some (.str "")

/-- Shallow embedding of the challenge extraction inlined in
`createEIP712SigningFunction` (`src/src/hooks/useClearNodeConnection.ts` lines
40-93).  It differs from the server extractor in two places: the direct-array
string branch reads `parsed[2][0]?.challenge` with no `|| ""` default, and the
object branch reads `data.challenge || data.challenge_message` with no `|| ""`
default, so both branches can leave the variable `undefined`. -/
def clientExtractChallenge : ExtractInput → Option JVal
  | .arrIn xs =>
    if 3 ≤ xs.length then
      match xs[2]? with
      | some (JVal.arr ys) =>
        if 0 < ys.length then
          match ys[0]? with
          | some challengeObject =>
            if challengeObject.truthy then
              match jsField challengeObject "challenge" with
              | some c => if c.truthy then some c else some (.str "")
              | none => some (.str "")
            else some (.str "")
          | none => some (.str "")
        else some (.str "")
      | _ => some (.str "")
    else some (.str "")
  | .strIn raw none => some (.str raw)
  | .strIn raw (some JVal.null) => some (.str raw)
  | .strIn _ (some parsed) =>
    match jsField parsed "res" with
    | some (JVal.arr res) =>
      match res[1]? with
      | some (JVal.str tag) =>
        if tag = "auth_challenge" then
          if jsTruthy (res[2]?) then
            jsOr (jsFieldU (res[2]?) "challenge_message")
                 (jsFieldU (res[2]?) "challenge")
          else some (.str "")
        else if tag = "auth_verify" then
          match res[2]? with
          | some (JVal.arr zs) =>
            if jsTruthy (zs[0]?) then jsFieldU (zs[0]?) "challenge"
            else some (.str "")
          | _ => some (.str "")
        else some (.str "")
      | _ => some (.str "")
    | _ =>
      match parsed with
      | .arr ps =>
        if 3 ≤ ps.length then
          match ps[2]? with
          | some (JVal.arr qs) =>
            -- challengeUUID = parsed[2][0]?.challenge;   (no default)
            jsFieldU (qs[0]?) "challenge"
          | _ => some (.str "")
        else some (.str "")
      | _ => some (.str "")
  | .objIn fs =>
    -- challengeUUID = data.challenge || data.challenge_message;   (no default)
    jsOr (jsField (.obj fs) "challenge") (jsField (.obj fs) "challenge_message")
  | .otherIn => some (.str "")

/-- Outcome of a call to one of the signing functions.  The cryptographic
primitives themselves (ethers EIP-712 and raw secp256k1 signing) are external
capabilities assumed to succeed; the outcome records which signature, if any, is
produced. -/
inductive SignOutcome
  | eip712 (challenge : String)
  | rawFallback
  | extractFailure
  | jsTypeError
deriving DecidableEq

/-- Shallow embedding of `NitroliteRPCClient.signMessage`
(`src/server/src/services/nitroliteRPC.ts` lines 235-290).  When the extracted
challenge is falsy the code falls back to regular raw-hash signing of the whole
input (comment in source: fallback for non-auth messages) and returns that
signature; a truthy challenge containing `[` or `\x7b` throws; a truthy challenge
string otherwise is signed with EIP-712.  Calling `.includes` on a truthy
non-string value would throw a `TypeError`, modelled by `jsTypeError`. -/
def signMessage (data : ExtractInput) : SignOutcome :=
  let challengeUUID := extractChallenge data
  if jsTruthy challengeUUID then
    match challengeUUID with
    | some (JVal.str s) =>
      if s.data.contains openBracket || s.data.contains openBrace then SignOutcome.extractFailure
      else SignOutcome.eip712 s
    | _ => SignOutcome.jsTypeError
  else SignOutcome.rawFallback

/-- Shallow embedding of the signing closure returned by
`createEIP712SigningFunction` (`src/src/hooks/useClearNodeConnection.ts` lines
40-148).  Unlike the server version, a falsy extracted challenge throws the
extraction-failure error here; there is no raw-signing fallback for that case. -/
def clientSignChallenge (data : ExtractInput) : SignOutcome :=
  let challengeUUID := clientExtractChallenge data
  if jsTruthy challengeUUID then
    match challengeUUID with
    | some (JVal.str s) =>
      if s.data.contains openBracket || s.data.contains openBrace then SignOutcome.extractFailure
      else SignOutcome.eip712 s
    | _ => SignOutcome.jsTypeError
  else SignOutcome.extractFailure

/-! ## Connection state machine

The remaining definitions embed the stateful parts of `NitroliteRPCClient`:
connection lifecycle, pending-request correlation, reconnect policy and the
authentication handshake handler.  Externally observable side effects (status
notifications to registered observers, frames written to the socket, promise
settlements, reconnect-timer scheduling) are recorded in an append-only `effects`
log so that theorems can speak about what fired and in which order. -/

/-- Connection status enum (`WSStatus`, lines 41-49). -/
inductive WSStatus
  | connected
  | connecting
  | disconnected
  | reconnecting
  | reconnectFailed
  | authFailed
  | authenticating
deriving DecidableEq

/-- Frames written to the WebSocket, abstracted to the information the claims
talk about. -/
inductive Frame
  | authRequest
  | authVerify (challenge : String)
  | request (id : Int) (method : String)
  | ping
deriving DecidableEq

/-- How a pending request's promise was settled. -/
inductive Settlement
  | resolved (payload : JVal)
  | rejectedError (code msg : JVal)
  | rejectedTimeout
  | rejectedSendError

/-- Externally observable side effects, in the order they happen. -/
inductive Effect
  | notifyStatus (st : WSStatus)
  | wsSend (f : Frame)
  | settle (id : Int) (o : Settlement)
  | scheduleReconnect (delay : Nat)

/-- State of one `NitroliteRPCClient` instance.  `wsPresent` models
`this.ws !== null`; `wsOpen` models `this.ws.readyState === WebSocket.OPEN`;
`reconnectTimer` holds the delay of the currently scheduled reconnect timeout, if
any; `authHandlerActive` records whether the extra `authMessageHandler` listener
registered by `authenticate()` is attached. -/
structure ClientState where
  wsPresent : Bool
  wsOpen : Bool
  status : WSStatus
  pendingRequests : List Int
  nextRequestId : Int
  reconnectAttempts : Nat
  maxReconnectAttempts : Nat
  reconnectDelay : Nat
  reconnectTimer : Option Nat
  pingActive : Bool
  authHandlerActive : Bool
  channel : Option JVal
  effects : List Effect

/-- State produced by the constructor (lines 101-120). -/
def initClient : ClientState :=
  { wsPresent := false
    wsOpen := false
    status := .disconnected
    pendingRequests := []
    nextRequestId := 1
    reconnectAttempts := 0
    maxReconnectAttempts := 5
    reconnectDelay := 1000
    reconnectTimer := none
    pingActive := false
    authHandlerActive := false
    channel := none
    effects := [] }

/-- `setStatus` (lines 182-187): update the status field and notify every
registered status observer (the `forEach` over `onStatusChangeCallbacks` is
recorded as one broadcast effect). -/
def setStatus (s : ClientState) (st : WSStatus) : ClientState :=
  { s with status := st, effects := s.effects ++ [Effect.notifyStatus st] }

/-- First statement of `handleMessage` (lines 392-399): a response envelope
whose leading identifier matches a pending request resolves it with the payload
element `res[2]` and removes it from the table. -/
def handleResPart (s : ClientState) (message : JVal) : ClientState :=
  match jsField message "res" with
  | some (JVal.arr xs) =>
    if 3 ≤ xs.length then
      match xs[0]? with
      | some (JVal.num requestId) =>
        if requestId ∈ s.pendingRequests then
          { s with
            pendingRequests := s.pendingRequests.erase requestId
            effects := s.effects ++
              [Effect.settle requestId (Settlement.resolved (xs.getD 2 JVal.null))] }
        else s
      | _ => s
    else s
  | _ => s

/-- Second statement of `handleMessage` (lines 402-409): an error envelope with
a matching identifier rejects the pending request with the server-supplied code
and message. -/
def handleErrPart (s : ClientState) (message : JVal) : ClientState :=
  match jsField message "err" with
  | some (JVal.arr ys) =>
    if 3 ≤ ys.length then
      match ys[0]? with
      | some (JVal.num requestId) =>
        if requestId ∈ s.pendingRequests then
          { s with
            pendingRequests := s.pendingRequests.erase requestId
            effects := s.effects ++
              [Effect.settle requestId
                (Settlement.rejectedError (ys.getD 1 JVal.null) (ys.getD 2 JVal.null))] }
        else s
      | _ => s
    else s
  | _ => s

/-- Third statement of `handleMessage` (lines 412-416): a `channel_created`
message stores the channel. -/
def handleChannelPart (s : ClientState) (message : JVal) : ClientState :=
  match jsField message "type" with
  | some (JVal.str t) =>
    if t = "channel_created" then { s with channel := jsField message "channel" }
    else s
  | _ => s

/-- `handleMessage` (lines 382-420), applied to an already-parsed message value:
the three statements above run in sequence (listener callbacks in
`onMessageCallbacks` only observe the message). -/
def handleMessage (s : ClientState) (message : JVal) : ClientState :=
  handleChannelPart (handleErrPart (handleResPart s message) message) message

/-- Synchronous error cases of `sendRequest` (thrown before any state change). -/
inductive SendError
  | notInitialized
  | notOpen

/-- `sendRequest` (lines 423-470).  The two socket preconditions throw
synchronously.  A non-connected `authenticating` status is "fixed" to `connected`
with a full observer notification before anything is transmitted.  A fresh
identifier is allocated from the counter; on successful signing the request is
registered in the pending table (with its individual timeout) and the signed frame
is written to the socket; a signing failure (`signOk = false`, the signer being an
external capability) deletes the never-inserted identifier and rejects the
caller's promise. -/
def sendRequest (s : ClientState) (method : String) (signOk : Bool) :
    Except SendError (ClientState × Int) :=
  if s.wsPresent = false then .error SendError.notInitialized
  else if s.wsOpen = false then .error SendError.notOpen
  else
    let s :=
      if s.status ≠ WSStatus.connected then
        if s.status = WSStatus.authenticating then setStatus s WSStatus.connected else s
      else s
    let requestId := s.nextRequestId
    let s := { s with nextRequestId := s.nextRequestId + 1 }
    if signOk then
      let s := { s with pendingRequests := requestId :: s.pendingRequests }
      let s := { s with effects := s.effects ++ [Effect.wsSend (Frame.request requestId method)] }
      .ok (s, requestId)
    else
      let s := { s with
        pendingRequests := s.pendingRequests.erase requestId
        effects := s.effects ++ [Effect.settle requestId Settlement.rejectedSendError] }
      .ok (s, requestId)

/-- The timeout callback registered by `sendRequest` (lines 454-459) for
`requestId`: if the request is still pending it is removed from the table and the
caller is rejected with the timeout error; otherwise the callback does nothing. -/
def requestTimeoutFire (s : ClientState) (requestId : Int) : ClientState :=
  if requestId ∈ s.pendingRequests then
    { s with
      pendingRequests := s.pendingRequests.erase requestId
      effects := s.effects ++ [Effect.settle requestId Settlement.rejectedTimeout] }
  else s

/-- `handleReconnect` (lines 492-512): give up with `reconnect_failed` once the
attempt counter has reached the maximum; otherwise increment the counter, notify
`reconnecting`, and (re)schedule the reconnect timer with a linearly growing
delay. -/
def handleReconnect (s : ClientState) : ClientState :=
  if s.maxReconnectAttempts ≤ s.reconnectAttempts then
    setStatus s WSStatus.reconnectFailed
  else
    let attempts := s.reconnectAttempts + 1
    let delay := s.reconnectDelay * attempts
    let s := { s with reconnectAttempts := attempts }
    let s := setStatus s WSStatus.reconnecting
    { s with
      reconnectTimer := some delay
      effects := s.effects ++ [Effect.scheduleReconnect delay] }

/-- The socket `close`-event handler registered in `connect` (lines 168-173):
notify `disconnected`, stop the ping interval, and run the reconnect policy.  Note
that it never touches the pending-request table. -/
def onCloseHandler (s : ClientState) : ClientState :=
  let s := setStatus s WSStatus.disconnected
  let s := { s with pingActive := false }
  handleReconnect s

/-- `connect` (lines 133-143 and 174-179, successful-constructor path): a no-op
while already connected or connecting; otherwise notify `connecting` and create a
fresh (not yet open) socket with its event handlers. -/
def connect (s : ClientState) : ClientState :=
  if s.status = WSStatus.connected ∨ s.status = WSStatus.connecting then s
  else
    let s := setStatus s WSStatus.connecting
    { s with wsPresent := true, wsOpen := false }

/-- The reconnect timer firing (line 509-511): the timer is consumed and
`connect` runs. -/
def reconnectTimerFire (s : ClientState) : ClientState :=
  match s.reconnectTimer with
  | some _ => connect { s with reconnectTimer := none }
  | none => s

/-- `close` (lines 515-531): stop the ping interval, cancel any pending reconnect
timer, close and drop the socket, and notify `disconnected`.  The socket's own
asynchronous `close` event (which still runs `onCloseHandler`) is a separate
event. -/
def close (s : ClientState) : ClientState :=
  let s := { s with pingActive := false }
  let s := { s with reconnectTimer := none }
  let s := if s.wsPresent then { s with wsPresent := false, wsOpen := false } else s
  setStatus s WSStatus.disconnected

/-- The socket `open`-event handler (lines 145-158) together with the synchronous
prefix of `authenticate()` (lines 293-379): notify `authenticating`, register the
auth message listener, and send the auth request frame.  The continuations that
run once the `authenticate()` promise settles are modelled by
`authPromiseResolved` / `authPromiseRejected` below. -/
def onOpenHandler (s : ClientState) : ClientState :=
  let s := { s with wsOpen := true }
  let s := setStatus s WSStatus.authenticating
  { s with
    authHandlerActive := true
    effects := s.effects ++ [Effect.wsSend Frame.authRequest] }

/-- Modelled from the spec: `createAuthVerifyMessage` of the external
`@erc7824/nitrolite` SDK (not part of this repository's sources).  Per §4.2/§6 of
the spec it passes the raw challenge message to the supplied signer and wraps the
resulting signature into the outbound verify frame, which embeds the extracted
challenge token; when the signer throws, message creation fails.  The returned
string is the challenge token carried by the verify frame. -/
def createAuthVerifyMessage (raw : String) (parsed : Option JVal) : Option String :=
  match signMessage (ExtractInput.strIn raw parsed) with
  | .eip712 c => some c
  | .rawFallback => some ""
  | .extractFailure => none
  | .jsTypeError => none

/-- The `authMessageHandler` listener body (`handleAuthResponse`, lines 323-362),
run for one incoming frame while the listener is attached.  A parse failure, or a
`null` parse result (on which `response.res` throws), hits the `catch` block which
removes the listener and rejects the handshake.  An `auth_challenge` envelope
produces and sends the verify frame (or fails the handshake when the signer
throws); an `auth_verify` envelope removes the listener, notifies `connected` and
issues the `get_channels` request (`getChannelInfo`, errors logged and ignored);
an `err` envelope removes the listener and rejects. -/
def authMessageHandler (s : ClientState) (raw : String) (parsed : Option JVal) :
    ClientState :=
  if s.authHandlerActive = false then s
  else
    match parsed with
    | none => { s with authHandlerActive := false }
    | some JVal.null => { s with authHandlerActive := false }
    | some response =>
      match jsField response "res" with
      | some (JVal.arr res) =>
        match res[1]? with
        | some (JVal.str tag) =>
          if tag = "auth_challenge" then
            match createAuthVerifyMessage raw parsed with
            | some c =>
              { s with effects := s.effects ++ [Effect.wsSend (Frame.authVerify c)] }
            | none => { s with authHandlerActive := false }
          else if tag = "auth_verify" then
            let s := { s with authHandlerActive := false }
            let s := setStatus s WSStatus.connected
            match sendRequest s "get_channels" true with
            | .ok (s1, _) => s1
            | .error _ => s
          else
            -- other tags fall through to the err check below
            match jsField response "err" with
            | some e => if e.truthy then { s with authHandlerActive := false } else s
            | none => s
        | _ =>
          match jsField response "err" with
          | some e => if e.truthy then { s with authHandlerActive := false } else s
          | none => s
      | _ =>
        match jsField response "err" with
        | some e => if e.truthy then { s with authHandlerActive := false } else s
        | none => s

/-- Continuation in the `open` handler after `authenticate()` resolves (lines
150-152): reset the reconnect counter and start the keepalive ping interval. -/
def authPromiseResolved (s : ClientState) : ClientState :=
  { s with reconnectAttempts := 0, pingActive := true }

/-- Continuation in the `open` handler after `authenticate()` rejects (lines
153-157): notify `auth_failed` and close the socket (its asynchronous `close`
event then arrives separately). -/
def authPromiseRejected (s : ClientState) : ClientState :=
  let s := setStatus s WSStatus.authFailed
  { s with wsOpen := false }

/-- One incoming frame dispatched to the listeners in registration order: the
permanent `message` handler from `connect` first, then the handshake listener when
attached.  `parsed` is the result of `JSON.parse` on the frame (`none` when it
throws; `handleMessage` catches that and does nothing). -/
def incomingMessage (s : ClientState) (raw : String) (parsed : Option JVal) :
    ClientState :=
  let s :=
    match parsed with
    | some v => handleMessage s v
    | none => s
  authMessageHandler s raw parsed

/-- The ping-interval callback (lines 478-488): while the interval is running and
the client is connected with a live socket, a signed ping frame is sent. -/
def pingTick (s : ClientState) : ClientState :=
  if s.pingActive = true ∧ s.status = WSStatus.connected ∧ s.wsPresent = true then
    { s with effects := s.effects ++ [Effect.wsSend Frame.ping] }
  else s

/-- The discrete events the single-threaded runtime can deliver to one client. -/
inductive Event
  | callSendRequest (method : String) (signOk : Bool)
  | recv (raw : String) (parsed : Option JVal)
  | fireTimeout (id : Int)
  | wsClosed
  | callClose
  | callConnect
  | fireReconnect
  | wsOpened
  | authResolved
  | authRejected
  | pingFire

/-- One event-handler invocation. -/
def step (s : ClientState) : Event → ClientState
  | .callSendRequest m ok =>
    match sendRequest s m ok with
    | .ok (s1, _) => s1
    | .error _ => s
  | .recv raw parsed => incomingMessage s raw parsed
  | .fireTimeout id => requestTimeoutFire s id
  | .wsClosed => onCloseHandler s
  | .callClose => close s
  | .callConnect => connect s
  | .fireReconnect => reconnectTimerFire s
  | .wsOpened => onOpenHandler s
  | .authResolved => authPromiseResolved s
  | .authRejected => authPromiseRejected s
  | .pingFire => pingTick s

/-- Run a sequence of events. -/
def run (s : ClientState) (tr : List Event) : ClientState :=
  tr.foldl step s

/-! ## Settlement bookkeeping -/

/-- All settlement effects recorded for identifier `id`, in order. -/
def settlementsOf (id : Int) (effs : List Effect) : List Settlement :=
  effs.filterMap fun e =>
    match e with
    | .settle j o => if j = id then some o else none
    | _ => none

/-- The settlements the client has performed for identifier `id`. -/
def settledFor (id : Int) (s : ClientState) : List Settlement :=
  settlementsOf id s.effects

/-- The identifiers of all settlement effects, in order. -/
def settleIds (effs : List Effect) : List Int :=
  effs.filterMap fun e =>
    match e with
    | .settle j _ => some j
    | _ => none

/-- The reconnect delays that have been scheduled, in order. -/
def reconnectSchedules (effs : List Effect) : List Nat :=
  effs.filterMap fun e =>
    match e with
    | .scheduleReconnect d => some d
    | _ => none

/-- Correlation invariant maintained by every event handler: pending identifiers
are below the allocation counter and pairwise distinct, and every identifier that
was ever settled is below the counter, no longer pending, and settled only once. -/
def inv (s : ClientState) : Prop :=
  (∀ id ∈ s.pendingRequests, id < s.nextRequestId) ∧
  s.pendingRequests.Nodup ∧
  (∀ j ∈ settleIds s.effects, j < s.nextRequestId ∧ j ∉ s.pendingRequests) ∧
  (settleIds s.effects).Nodup

lemma settlementsOf_append (id : Int) (a b : List Effect) :
    settlementsOf id (a ++ b) = settlementsOf id a ++ settlementsOf id b :=
  List.filterMap_append a b _

lemma settleIds_append (a b : List Effect) :
    settleIds (a ++ b) = settleIds a ++ settleIds b :=
  List.filterMap_append a b _

lemma reconnectSchedules_append (a b : List Effect) :
    reconnectSchedules (a ++ b) = reconnectSchedules a ++ reconnectSchedules b :=
  List.filterMap_append a b _

lemma settlementsOf_notify (id : Int) (st : WSStatus) :
    settlementsOf id [Effect.notifyStatus st] = [] := rfl

lemma settlementsOf_send (id : Int) (f : Frame) :
    settlementsOf id [Effect.wsSend f] = [] := rfl

lemma settlementsOf_settle (id j : Int) (o : Settlement) :
    settlementsOf id [Effect.settle j o] = if j = id then [o] else [] := by
  by_cases h : j = id <;> simp [settlementsOf, List.filterMap, h]

lemma settleIds_settle (j : Int) (o : Settlement) :
    settleIds [Effect.settle j o] = [j] := rfl

/-- The number of settlements for `id` equals how often `id` occurs among the
settlement identifiers. -/
lemma settlementsOf_length (id : Int) (effs : List Effect) :
    (settlementsOf id effs).length = (settleIds effs).count id := by
  induction effs with
  | nil => rfl
  | cons e tl ih =>
    cases e with
    | settle j o =>
      by_cases h : j = id
      · subst h
        simp [settlementsOf, settleIds, List.filterMap_cons, List.count_cons] at *
        omega
      · simp [settlementsOf, settleIds, List.filterMap_cons, List.count_cons, h,
          settlementsOf, settleIds] at *
        simpa [settlementsOf, settleIds] using ih
    | notifyStatus st => simpa [settlementsOf, settleIds, List.filterMap_cons] using ih
    | wsSend f => simpa [settlementsOf, settleIds, List.filterMap_cons] using ih
    | scheduleReconnect d => simpa [settlementsOf, settleIds, List.filterMap_cons] using ih

/-! ## Claims about the challenge extractor and the signing step (C3, C4, C5) -/

/-- C4: for every extracted challenge token that contains `[` or an opening curly
brace, both the server signing function and the client hook's signing function
fail with the extraction-failure error and never produce a signature over that
token. -/
theorem C4_delimiter_token_never_signed (d : ExtractInput) (s : String)
    (hse : extractChallenge d = some (JVal.str s))
    (hce : clientExtractChallenge d = some (JVal.str s))
    (hdelim : s.data.contains openBracket = true ∨ s.data.contains openBrace = true) :
    signMessage d = SignOutcome.extractFailure ∧
    clientSignChallenge d = SignOutcome.extractFailure := by
  have hne : s ≠ "" := by
    rintro rfl
    rcases hdelim with h | h <;> simp [openBracket, openBrace] at h
  have htruthy : jsTruthy (some (JVal.str s)) = true := by
    simp [jsTruthy, JVal.truthy, hne]
  have hcont : (s.data.contains openBracket || s.data.contains openBrace) = true := by
    rcases hdelim with h | h
    · rw [h, Bool.true_or]
    · rw [h, Bool.or_true]
  refine ⟨?_, ?_⟩
  · simp only [signMessage, hse, htruthy, hcont, if_true]
  · simp only [clientSignChallenge, hce, htruthy, hcont, if_true]

/-- Witness for C4 at a concrete token containing `[`. -/
theorem C4_witness :
    signMessage (ExtractInput.objIn [("challenge", JVal.str "bad[")]) =
      SignOutcome.extractFailure ∧
    clientSignChallenge (ExtractInput.objIn [("challenge", JVal.str "bad[")]) =
      SignOutcome.extractFailure :=
  C4_delimiter_token_never_signed _ "bad[" rfl rfl (Or.inl (by decide))

/-- An `auth_challenge` response envelope whose payload carries no challenge
field: challenge extraction yields no token on it. -/
def noChallengeEnvelope : JVal :=
  .obj [("res", .arr [.num 1, .str "auth_challenge", .obj [], .num 1000])]

/-- Counterexample to C5: on an auth-challenge message whose payload lacks the
challenge field, extraction yields no token (`undefined`), yet the server's
`signMessage` does not fail the verify step: it falls back to regular raw-hash
signing and produces a signature over the whole message. -/
theorem C5_counterexample :
    extractChallenge (ExtractInput.strIn "auth challenge frame" (some noChallengeEnvelope))
      = none ∧
    signMessage (ExtractInput.strIn "auth challenge frame" (some noChallengeEnvelope))
      = SignOutcome.rawFallback :=
  ⟨rfl, rfl⟩

/-- C5 as amended: when challenge extraction yields no token, the client hook's
signing function fails locally with the extraction-failure error, but the
server's `signMessage` instead falls back to raw-hash signing of the whole
message and does produce a signature; in neither implementation is an EIP-712
signature over a challenge produced. -/
theorem C5_no_token_amended (d : ExtractInput)
    (hs : jsTruthy (extractChallenge d) = false)
    (hc : jsTruthy (clientExtractChallenge d) = false) :
    signMessage d = SignOutcome.rawFallback ∧
    clientSignChallenge d = SignOutcome.extractFailure := by
  refine ⟨?_, ?_⟩
  · simp [signMessage, hs]
  · simp [clientSignChallenge, hc]

/-- Witness for the amended C5 at a concrete input without a challenge. -/
theorem C5_witness :
    signMessage ExtractInput.otherIn = SignOutcome.rawFallback ∧
    clientSignChallenge ExtractInput.otherIn = SignOutcome.extractFailure :=
  C5_no_token_amended ExtractInput.otherIn rfl rfl

/-- The challenge value a message embeds, following the specification's
description of the supported shapes (§4.1, §6): an array with the challenge
object at position `[2][0]`; a JSON string parsing to a `res` envelope tagged
`auth_challenge` (with the payload's `challenge_message` or `challenge` field) or
`auth_verify` (with the `challenge` field of the first payload element), or
parsing to the array shape directly; or a plain object with a `challenge` or
`challenge_message` field.  The result is `none` when the message embeds no
challenge.  Unlike the extractor in the code, this definition has no raw-string
fallback and no empty-string default. -/
def specChallengeOf : ExtractInput → Option JVal
  | .arrIn xs =>
    match xs[2]? with
    | some (JVal.arr ys) =>
      match ys[0]? with
      | some co =>
        if co.truthy then
          match jsField co "challenge" with
          | some c => if c.truthy then some c else none
          | none => none
        else none
      | none => none
    | _ => none
  | .strIn _ none => none
  | .strIn _ (some .null) => none
  | .strIn _ (some parsed) =>
    match jsField parsed "res" with
    | some (JVal.arr res) =>
      match res[1]? with
      | some (JVal.str tag) =>
        if tag = "auth_challenge" then
          if jsTruthy (res[2]?) then
            jsOr (jsFieldU (res[2]?) "challenge_message")
                 (jsFieldU (res[2]?) "challenge")
          else none
        else if tag = "auth_verify" then
          match res[2]? with
          | some (JVal.arr zs) =>
            if jsTruthy (zs[0]?) then jsFieldU (zs[0]?) "challenge" else none
          | _ => none
        else none
      | _ => none
    | _ =>
      match parsed with
      | .arr ps =>
        if 3 ≤ ps.length then
          match ps[2]? with
          | some (JVal.arr qs) =>
            if jsTruthy (jsFieldU (qs[0]?) "challenge") then
              jsFieldU (qs[0]?) "challenge"
            else none
          | _ => none
        else none
      | _ => none
  | .objIn fs =>
    if jsTruthy (jsField (.obj fs) "challenge") then jsField (.obj fs) "challenge"
    else if jsTruthy (jsField (.obj fs) "challenge_message") then
      jsField (.obj fs) "challenge_message"
    else none
  | .otherIn => none

/-- Counterexample to C3: the string input `"hello"` is not valid JSON and embeds
no challenge in any of the supported shapes, yet the extractor returns the raw
string itself rather than the empty string. -/
theorem C3_counterexample :
    specChallengeOf (ExtractInput.strIn "hello" none) = none ∧
    extractChallenge (ExtractInput.strIn "hello" none) = some (JVal.str "hello") ∧
    clientExtractChallenge (ExtractInput.strIn "hello" none) = some (JVal.str "hello") ∧
    JVal.str "hello" ≠ JVal.str "" :=
  ⟨rfl, rfl, rfl, by simp⟩

/-- Guard-free form of the array branch of `extractChallenge`: the explicit
length checks in the source are subsumed by the index lookups. -/
lemma extractChallenge_arrIn (xs : List JVal) :
    extractChallenge (.arrIn xs) =
      (match xs[2]? with
       | some (JVal.arr ys) =>
         (match ys[0]? with
          | some co =>
            if co.truthy then
              match jsField co "challenge" with
              | some c => if c.truthy then some c else some (.str "")
              | none => some (.str "")
            else some (.str "")
          | none => some (.str ""))
       | _ => some (.str "")) := by
  rcases h2 : xs[2]? with _ | v
  · have hlen : ¬ 3 ≤ xs.length := by
      have := List.getElem?_eq_none_iff.mp h2
      omega
    simp [extractChallenge, hlen, h2]
  · have h3 : 3 ≤ xs.length := by
      have h := (List.getElem?_eq_some.mp h2).1
      omega
    cases v with
    | arr ys =>
      rcases h0 : ys[0]? with _ | co
      · have hy : ¬ 0 < ys.length := by
          have := List.getElem?_eq_none_iff.mp h0
          omega
        simp [extractChallenge, h3, h2, h0, hy]
      · have hy : 0 < ys.length := by
          have h := (List.getElem?_eq_some.mp h0).1
          omega
        simp [extractChallenge, h3, h2, h0, hy]
    | null => simp [extractChallenge, h3, h2]
    | bool b => simp [extractChallenge, h3, h2]
    | num n => simp [extractChallenge, h3, h2]
    | str t => simp [extractChallenge, h3, h2]
    | obj fs => simp [extractChallenge, h3, h2]

lemma spec_sub_extract_strIn (raw : String) (parsed : JVal) (v : JVal)
    (hnn : parsed ≠ JVal.null)
    (h : specChallengeOf (.strIn raw (some parsed)) = some v) :
    extractChallenge (.strIn raw (some parsed)) = some v := by
  cases parsed with
  | null => exact absurd rfl hnn
  | bool b => simp [specChallengeOf, jsField] at h
  | num n => simp [specChallengeOf, jsField] at h
  | str t => simp [specChallengeOf, jsField] at h
  | arr ps =>
    simp only [specChallengeOf, jsField] at h
    by_cases hp : 3 ≤ ps.length
    · rw [if_pos hp] at h
      rcases h2 : ps[2]? with _ | w <;> rw [h2] at h
      · simp at h
      · cases w <;> try simp at h
        rename_i qs
        obtain ⟨ht, hv⟩ := h
        simp only [extractChallenge, jsField, hp, if_true, h2, jsOr, ht]
        exact hv
    · rw [if_neg hp] at h
      simp at h
  | obj fs =>
    simp only [specChallengeOf, jsField] at h
    rcases hr : fs.lookup "res" with _ | w <;> rw [hr] at h
    · simp at h
    · cases w <;> try simp at h
      rename_i res
      rcases h1 : res[1]? with _ | w1 <;> rw [h1] at h
      · simp at h
      · cases w1 <;> try simp at h
        rename_i tag
        by_cases htag : tag = "auth_challenge"
        · rw [if_pos htag] at h
          by_cases h2 : jsTruthy (res[2]?)
          · rw [if_pos h2] at h
            simp only [extractChallenge, jsField, hr, h1, htag, if_true, h2]
            exact h
          · rw [if_neg h2] at h
            simp at h
        · rw [if_neg htag] at h
          by_cases hver : tag = "auth_verify"
          · rw [if_pos hver] at h
            rcases h2 : res[2]? with _ | w2 <;> rw [h2] at h
            · simp at h
            · cases w2 <;> try simp at h
              rename_i zs
              obtain ⟨h0, hv⟩ := h
              simp_all [extractChallenge, jsField]
          · rw [if_neg hver] at h
            simp at h

/-- Positive half of the amended C3: whenever a message embeds a challenge in one
of the spec's shapes, the extractor returns exactly that value. -/
lemma spec_sub_extract (i : ExtractInput) (v : JVal)
    (h : specChallengeOf i = some v) : extractChallenge i = some v := by
  cases i with
  | otherIn => simp [specChallengeOf] at h
  | objIn fs =>
    simp only [specChallengeOf] at h
    by_cases h1 : jsTruthy (jsField (JVal.obj fs) "challenge")
    · rw [if_pos h1] at h
      have e1 : jsOr (jsField (JVal.obj fs) "challenge")
          (jsField (JVal.obj fs) "challenge_message") = jsField (JVal.obj fs) "challenge" :=
        if_pos h1
      show jsOr (jsOr (jsField (JVal.obj fs) "challenge")
        (jsField (JVal.obj fs) "challenge_message")) (some (JVal.str "")) = some v
      rw [e1]
      have e2 : jsOr (jsField (JVal.obj fs) "challenge") (some (JVal.str "")) =
          jsField (JVal.obj fs) "challenge" := if_pos h1
      rw [e2]
      exact h
    · rw [if_neg h1] at h
      by_cases h2 : jsTruthy (jsField (JVal.obj fs) "challenge_message")
      · rw [if_pos h2] at h
        have e1 : jsOr (jsField (JVal.obj fs) "challenge")
            (jsField (JVal.obj fs) "challenge_message") =
            jsField (JVal.obj fs) "challenge_message" := if_neg h1
        show jsOr (jsOr (jsField (JVal.obj fs) "challenge")
          (jsField (JVal.obj fs) "challenge_message")) (some (JVal.str "")) = some v
        rw [e1]
        have e2 : jsOr (jsField (JVal.obj fs) "challenge_message") (some (JVal.str "")) =
            jsField (JVal.obj fs) "challenge_message" := if_pos h2
        rw [e2]
        exact h
      · rw [if_neg h2] at h
        simp at h
  | arrIn xs =>
    rw [extractChallenge_arrIn]
    simp only [specChallengeOf] at h
    rcases h2 : xs[2]? with _ | w <;> rw [h2] at h
    · simp at h
    · cases w <;> try simp at h
      rename_i ys
      rcases h0 : ys[0]? with _ | co <;> rw [h0] at h
      · simp at h
      · by_cases ht : co.truthy
        · rcases hc : jsField co "challenge" with _ | c
          · simp_all
          · by_cases hct : c.truthy
            · simp_all
            · simp_all
        · simp_all
  | strIn raw parsed =>
    cases parsed with
    | none => simp [specChallengeOf] at h
    | some p =>
      rcases em (p = JVal.null) with rfl | hnn
      · simp [specChallengeOf] at h
      · exact spec_sub_extract_strIn raw p v hnn h

lemma extract_of_spec_none_strIn (raw : String) (parsed : JVal)
    (hnn : parsed ≠ JVal.null)
    (h : specChallengeOf (.strIn raw (some parsed)) = none) :
    extractChallenge (.strIn raw (some parsed)) = some (JVal.str "") ∨
    extractChallenge (.strIn raw (some parsed)) = none := by
  cases parsed with
  | null => exact absurd rfl hnn
  | bool b => left; simp [extractChallenge, jsField]
  | num n => left; simp [extractChallenge, jsField]
  | str t => left; simp [extractChallenge, jsField]
  | arr ps =>
    simp only [specChallengeOf, jsField] at h
    by_cases hp : 3 ≤ ps.length
    · rw [if_pos hp] at h
      rcases h2 : ps[2]? with _ | w
      · rw [h2] at h
        left
        simp [extractChallenge, jsField, hp, h2]
      · rw [h2] at h
        cases w <;> try (left; simp [extractChallenge, jsField, hp, h2]; done)
        rename_i qs
        dsimp only at h
        by_cases ht : jsTruthy (jsFieldU (qs[0]?) "challenge")
        · rw [if_pos ht] at h
          rw [h] at ht
          simp [jsTruthy] at ht
        · left
          have e1 : jsOr (jsFieldU (qs[0]?) "challenge") (some (JVal.str "")) =
              some (JVal.str "") := if_neg ht
          simp [extractChallenge, jsField, hp, h2, e1]
    · rw [if_neg hp] at h
      left
      simp [extractChallenge, jsField, hp]
  | obj fs =>
    simp only [specChallengeOf, jsField] at h
    rcases hr : fs.lookup "res" with _ | w
    · rw [hr] at h
      left
      simp [extractChallenge, jsField, hr]
    · rw [hr] at h
      cases w <;> try (left; simp [extractChallenge, jsField, hr]; done)
      rename_i res
      dsimp only at h
      rcases h1 : res[1]? with _ | w1
      · rw [h1] at h
        left
        simp [extractChallenge, jsField, hr, h1]
      · rw [h1] at h
        cases w1 <;> try (left; simp [extractChallenge, jsField, hr, h1]; done)
        rename_i tag
        dsimp only at h
        by_cases htag : tag = "auth_challenge"
        · rw [if_pos htag] at h
          by_cases h2 : jsTruthy (res[2]?)
          · rw [if_pos h2] at h
            right
            simp [extractChallenge, jsField, hr, h1, htag, h2, h]
          · rw [if_neg h2] at h
            left
            simp [extractChallenge, jsField, hr, h1, htag, h2]
        · rw [if_neg htag] at h
          by_cases hver : tag = "auth_verify"
          · rw [if_pos hver] at h
            rcases h2 : res[2]? with _ | w2
            · rw [h2] at h
              left
              simp [extractChallenge, jsField, hr, h1, htag, hver, h2]
            · rw [h2] at h
              cases w2 <;>
                try (left; simp [extractChallenge, jsField, hr, h1, htag, hver, h2]; done)
              rename_i zs
              dsimp only at h
              by_cases h0 : jsTruthy (zs[0]?)
              · rw [if_pos h0] at h
                right
                simp [extractChallenge, jsField, hr, h1, htag, hver, h2, h0, h]
              · rw [if_neg h0] at h
                left
                simp [extractChallenge, jsField, hr, h1, htag, hver, h2, h0]
          · rw [if_neg hver] at h
            left
            simp [extractChallenge, jsField, hr, h1, htag, hver]

/-- Negative half of the amended C3: a message embedding no challenge (and not
hitting the raw-string catch fallback) extracts to the empty string or to
JavaScript `undefined`. -/
lemma extract_of_spec_none (i : ExtractInput)
    (h : specChallengeOf i = none)
    (hf1 : ∀ s, i ≠ ExtractInput.strIn s none)
    (hf2 : ∀ s, i ≠ ExtractInput.strIn s (some JVal.null)) :
    extractChallenge i = some (JVal.str "") ∨ extractChallenge i = none := by
  cases i with
  | otherIn => exact Or.inl rfl
  | objIn fs =>
    simp only [specChallengeOf] at h
    by_cases h1 : jsTruthy (jsField (JVal.obj fs) "challenge")
    · rw [if_pos h1] at h
      rw [h] at h1
      simp [jsTruthy] at h1
    · rw [if_neg h1] at h
      by_cases h2 : jsTruthy (jsField (JVal.obj fs) "challenge_message")
      · rw [if_pos h2] at h
        rw [h] at h2
        simp [jsTruthy] at h2
      · left
        show jsOr (jsOr (jsField (JVal.obj fs) "challenge")
          (jsField (JVal.obj fs) "challenge_message")) (some (JVal.str "")) =
          some (JVal.str "")
        have e1 : jsOr (jsField (JVal.obj fs) "challenge")
            (jsField (JVal.obj fs) "challenge_message") =
            jsField (JVal.obj fs) "challenge_message" := if_neg h1
        rw [e1]
        exact if_neg h2
  | arrIn xs =>
    rw [extractChallenge_arrIn]
    simp only [specChallengeOf] at h
    rcases h2 : xs[2]? with _ | w
    · rw [h2] at h
      left
      simp [h2]
    · rw [h2] at h
      cases w <;> try (left; simp [h2]; done)
      rename_i ys
      dsimp only at h ⊢
      rcases h0 : ys[0]? with _ | co
      · rw [h0] at h
        left
        simp [h2, h0]
      · rw [h0] at h
        by_cases ht : co.truthy
        · rcases hc : jsField co "challenge" with _ | c
          · left; simp_all
          · by_cases hct : c.truthy
            · simp_all
            · left; simp_all
        · left; simp_all
  | strIn raw parsed =>
    cases parsed with
    | none => exact absurd rfl (hf1 raw)
    | some p =>
      rcases em (p = JVal.null) with rfl | hnn
      · exact absurd rfl (hf2 raw)
      · exact extract_of_spec_none_strIn raw p hnn h

/-- The array branch of the client hook's extractor coincides with the server
extractor's array branch (the two implementations share that code verbatim). -/
lemma clientExtractChallenge_arrIn (xs : List JVal) :
    clientExtractChallenge (.arrIn xs) =
      (match xs[2]? with
       | some (JVal.arr ys) =>
         (match ys[0]? with
          | some co =>
            if co.truthy then
              match jsField co "challenge" with
              | some c => if c.truthy then some c else some (.str "")
              | none => some (.str "")
            else some (.str "")
          | none => some (.str ""))
       | _ => some (.str "")) := by
  rcases h2 : xs[2]? with _ | v
  · have hlen : ¬ 3 ≤ xs.length := by
      have := List.getElem?_eq_none_iff.mp h2
      omega
    simp [clientExtractChallenge, hlen, h2]
  · have h3 : 3 ≤ xs.length := by
      have h := (List.getElem?_eq_some.mp h2).1
      omega
    cases v with
    | arr ys =>
      rcases h0 : ys[0]? with _ | co
      · have hy : ¬ 0 < ys.length := by
          have := List.getElem?_eq_none_iff.mp h0
          omega
        simp [clientExtractChallenge, h3, h2, h0, hy]
      · have hy : 0 < ys.length := by
          have h := (List.getElem?_eq_some.mp h0).1
          omega
        simp [clientExtractChallenge, h3, h2, h0, hy]
    | null => simp [clientExtractChallenge, h3, h2]
    | bool b => simp [clientExtractChallenge, h3, h2]
    | num n => simp [clientExtractChallenge, h3, h2]
    | str t => simp [clientExtractChallenge, h3, h2]
    | obj fs => simp [clientExtractChallenge, h3, h2]

lemma client_arrIn_eq (xs : List JVal) :
    clientExtractChallenge (.arrIn xs) = extractChallenge (.arrIn xs) := by
  rw [clientExtractChallenge_arrIn, extractChallenge_arrIn]

lemma clientSpec_sub_extract_strIn (raw : String) (parsed : JVal) (v : JVal)
    (hnn : parsed ≠ JVal.null)
    (h : specChallengeOf (.strIn raw (some parsed)) = some v) :
    clientExtractChallenge (.strIn raw (some parsed)) = some v := by
  cases parsed with
  | null => exact absurd rfl hnn
  | bool b => simp [specChallengeOf, jsField] at h
  | num n => simp [specChallengeOf, jsField] at h
  | str t => simp [specChallengeOf, jsField] at h
  | arr ps =>
    simp only [specChallengeOf, jsField] at h
    by_cases hp : 3 ≤ ps.length
    · rw [if_pos hp] at h
      rcases h2 : ps[2]? with _ | w <;> rw [h2] at h
      · simp at h
      · cases w <;> try simp at h
        rename_i qs
        obtain ⟨-, hv⟩ := h
        simp only [clientExtractChallenge, jsField, hp, if_true, h2]
        exact hv
    · rw [if_neg hp] at h
      simp at h
  | obj fs =>
    simp only [specChallengeOf, jsField] at h
    rcases hr : fs.lookup "res" with _ | w <;> rw [hr] at h
    · simp at h
    · cases w <;> try simp at h
      rename_i res
      rcases h1 : res[1]? with _ | w1 <;> rw [h1] at h
      · simp at h
      · cases w1 <;> try simp at h
        rename_i tag
        by_cases htag : tag = "auth_challenge"
        · rw [if_pos htag] at h
          by_cases h2 : jsTruthy (res[2]?)
          · rw [if_pos h2] at h
            simp only [clientExtractChallenge, jsField, hr, h1, htag, if_true, h2]
            exact h
          · rw [if_neg h2] at h
            simp at h
        · rw [if_neg htag] at h
          by_cases hver : tag = "auth_verify"
          · rw [if_pos hver] at h
            rcases h2 : res[2]? with _ | w2 <;> rw [h2] at h
            · simp at h
            · cases w2 <;> try simp at h
              rename_i zs
              obtain ⟨h0, hv⟩ := h
              simp_all [clientExtractChallenge, jsField]
          · rw [if_neg hver] at h
            simp at h

/-- Positive half of the amended C3 for the client hook's extractor: it too
returns exactly the embedded challenge value. -/
lemma clientSpec_sub_extract (i : ExtractInput) (v : JVal)
    (h : specChallengeOf i = some v) : clientExtractChallenge i = some v := by
  cases i with
  | otherIn => simp [specChallengeOf] at h
  | objIn fs =>
    simp only [specChallengeOf] at h
    by_cases h1 : jsTruthy (jsField (JVal.obj fs) "challenge")
    · rw [if_pos h1] at h
      show jsOr (jsField (JVal.obj fs) "challenge")
        (jsField (JVal.obj fs) "challenge_message") = some v
      rw [show jsOr (jsField (JVal.obj fs) "challenge")
        (jsField (JVal.obj fs) "challenge_message") =
        jsField (JVal.obj fs) "challenge" from if_pos h1]
      exact h
    · rw [if_neg h1] at h
      by_cases h2 : jsTruthy (jsField (JVal.obj fs) "challenge_message")
      · rw [if_pos h2] at h
        show jsOr (jsField (JVal.obj fs) "challenge")
          (jsField (JVal.obj fs) "challenge_message") = some v
        rw [show jsOr (jsField (JVal.obj fs) "challenge")
          (jsField (JVal.obj fs) "challenge_message") =
          jsField (JVal.obj fs) "challenge_message" from if_neg h1]
        exact h
      · rw [if_neg h2] at h
        simp at h
  | arrIn xs =>
    rw [client_arrIn_eq]
    exact spec_sub_extract (.arrIn xs) v h
  | strIn raw parsed =>
    cases parsed with
    | none => simp [specChallengeOf] at h
    | some p =>
      rcases em (p = JVal.null) with rfl | hnn
      · simp [specChallengeOf] at h
      · exact clientSpec_sub_extract_strIn raw p v hnn h

lemma clientExtract_falsy_strIn (raw : String) (parsed : JVal)
    (hnn : parsed ≠ JVal.null)
    (h : specChallengeOf (.strIn raw (some parsed)) = none) :
    jsTruthy (clientExtractChallenge (.strIn raw (some parsed))) = false := by
  cases parsed with
  | null => exact absurd rfl hnn
  | bool b => simp [clientExtractChallenge, jsField, jsTruthy, JVal.truthy]
  | num n => simp [clientExtractChallenge, jsField, jsTruthy, JVal.truthy]
  | str t => simp [clientExtractChallenge, jsField, jsTruthy, JVal.truthy]
  | arr ps =>
    simp only [specChallengeOf, jsField] at h
    by_cases hp : 3 ≤ ps.length
    · rw [if_pos hp] at h
      rcases h2 : ps[2]? with _ | w
      · rw [h2] at h
        simp [clientExtractChallenge, jsField, jsTruthy, JVal.truthy, hp, h2]
      · rw [h2] at h
        cases w <;>
          try (simp [clientExtractChallenge, jsField, jsTruthy, JVal.truthy, hp, h2]; done)
        rename_i qs
        dsimp only at h
        by_cases ht : jsTruthy (jsFieldU (qs[0]?) "challenge")
        · rw [if_pos ht] at h
          rw [h] at ht
          simp [jsTruthy] at ht
        · have hf : jsTruthy (jsFieldU (qs[0]?) "challenge") = false := by simpa using ht
          simp [clientExtractChallenge, jsField, hp, h2, hf]
    · rw [if_neg hp] at h
      simp [clientExtractChallenge, jsField, jsTruthy, JVal.truthy, hp]
  | obj fs =>
    simp only [specChallengeOf, jsField] at h
    rcases hr : fs.lookup "res" with _ | w
    · rw [hr] at h
      simp [clientExtractChallenge, jsField, jsTruthy, JVal.truthy, hr]
    · rw [hr] at h
      cases w <;>
        try (simp [clientExtractChallenge, jsField, jsTruthy, JVal.truthy, hr]; done)
      rename_i res
      dsimp only at h
      rcases h1 : res[1]? with _ | w1
      · rw [h1] at h
        simp [clientExtractChallenge, jsField, jsTruthy, JVal.truthy, hr, h1]
      · rw [h1] at h
        cases w1 <;>
          try (simp [clientExtractChallenge, jsField, jsTruthy, JVal.truthy, hr, h1]; done)
        rename_i tag
        dsimp only at h
        by_cases htag : tag = "auth_challenge"
        · rw [if_pos htag] at h
          by_cases h2 : jsTruthy (res[2]?)
          · rw [if_pos h2] at h
            have he : clientExtractChallenge (.strIn raw (some (JVal.obj fs))) =
                jsOr (jsFieldU (res[2]?) "challenge_message")
                  (jsFieldU (res[2]?) "challenge") := by
              simp [clientExtractChallenge, jsField, hr, h1, htag, h2]
            rw [he, h]
            rfl
          · rw [if_neg h2] at h
            have he : clientExtractChallenge (.strIn raw (some (JVal.obj fs))) =
                some (JVal.str "") := by
              simp [clientExtractChallenge, jsField, hr, h1, htag, h2]
            rw [he]
            rfl
        · rw [if_neg htag] at h
          by_cases hver : tag = "auth_verify"
          · rw [if_pos hver] at h
            rcases h2 : res[2]? with _ | w2
            · rw [h2] at h
              simp [clientExtractChallenge, jsField, jsTruthy, JVal.truthy, hr, h1, htag,
                hver, h2]
            · rw [h2] at h
              cases w2 <;>
                try (simp [clientExtractChallenge, jsField, jsTruthy, JVal.truthy, hr, h1,
                  htag, hver, h2]; done)
              rename_i zs
              dsimp only at h
              by_cases h0 : jsTruthy (zs[0]?)
              · rw [if_pos h0] at h
                have he : clientExtractChallenge (.strIn raw (some (JVal.obj fs))) =
                    jsFieldU (zs[0]?) "challenge" := by
                  simp [clientExtractChallenge, jsField, hr, h1, htag, hver, h2, h0]
                rw [he, h]
                rfl
              · rw [if_neg h0] at h
                have he : clientExtractChallenge (.strIn raw (some (JVal.obj fs))) =
                    some (JVal.str "") := by
                  simp [clientExtractChallenge, jsField, hr, h1, htag, hver, h2, h0]
                rw [he]
                rfl
          · rw [if_neg hver] at h
            simp [clientExtractChallenge, jsField, jsTruthy, JVal.truthy, hr, h1, htag,
              hver]

/-- Negative half of the amended C3 for the client hook's extractor: a message
embedding no challenge (and not hitting the raw-string catch fallback) extracts
to a falsy value — never to a usable token. -/
lemma clientExtract_of_spec_none (i : ExtractInput)
    (h : specChallengeOf i = none)
    (hf1 : ∀ s, i ≠ ExtractInput.strIn s none)
    (hf2 : ∀ s, i ≠ ExtractInput.strIn s (some JVal.null)) :
    jsTruthy (clientExtractChallenge i) = false := by
  cases i with
  | otherIn => rfl
  | objIn fs =>
    simp only [specChallengeOf] at h
    by_cases h1 : jsTruthy (jsField (JVal.obj fs) "challenge")
    · rw [if_pos h1] at h
      rw [h] at h1
      simp [jsTruthy] at h1
    · rw [if_neg h1] at h
      by_cases h2 : jsTruthy (jsField (JVal.obj fs) "challenge_message")
      · rw [if_pos h2] at h
        rw [h] at h2
        simp [jsTruthy] at h2
      · show jsTruthy (jsOr (jsField (JVal.obj fs) "challenge")
          (jsField (JVal.obj fs) "challenge_message")) = false
        rw [show jsOr (jsField (JVal.obj fs) "challenge")
          (jsField (JVal.obj fs) "challenge_message") =
          jsField (JVal.obj fs) "challenge_message" from if_neg h1]
        simpa using h2
  | arrIn xs =>
    rcases extract_of_spec_none (.arrIn xs) h (fun s hc => by cases hc)
        (fun s hc => by cases hc) with he | he <;>
      rw [client_arrIn_eq, he] <;> rfl
  | strIn raw parsed =>
    cases parsed with
    | none => exact absurd rfl (hf1 raw)
    | some p =>
      rcases em (p = JVal.null) with rfl | hnn
      · exact absurd rfl (hf2 raw)
      · exact clientExtract_falsy_strIn raw p hnn h

/-- C3 as amended: for every input carrying a challenge in one of the three
supported shapes, both the server extractor and the client hook's extractor
return exactly the embedded challenge value; a string input whose JSON parsing
fails (or parses to `null`, on which the `res` access throws) is returned
verbatim as the token by both, instead of yielding the empty string; every other
input lacking a challenge yields the empty string or JavaScript `undefined` from
the server extractor, and a falsy value — never a truthy token — from the client
extractor. -/
theorem C3_extractor_amended (i : ExtractInput) :
    (∀ v, specChallengeOf i = some v →
      extractChallenge i = some v ∧ clientExtractChallenge i = some v) ∧
    (∀ s, (i = ExtractInput.strIn s none ∨ i = ExtractInput.strIn s (some JVal.null)) →
      extractChallenge i = some (JVal.str s) ∧
      clientExtractChallenge i = some (JVal.str s)) ∧
    (specChallengeOf i = none →
      (∀ s, i ≠ ExtractInput.strIn s none) →
      (∀ s, i ≠ ExtractInput.strIn s (some JVal.null)) →
      (extractChallenge i = some (JVal.str "") ∨ extractChallenge i = none) ∧
      jsTruthy (clientExtractChallenge i) = false) := by
  refine ⟨fun v h => ⟨spec_sub_extract i v h, clientSpec_sub_extract i v h⟩, ?_,
    fun h hf1 hf2 => ⟨extract_of_spec_none i h hf1 hf2,
      clientExtract_of_spec_none i h hf1 hf2⟩⟩
  rintro s (rfl | rfl) <;> exact ⟨rfl, rfl⟩

/-- Witness for the amended C3 at the spec scenario challenge envelope, for both
extractors. -/
theorem C3_witness :
    extractChallenge
      (ExtractInput.strIn "y" (some (JVal.obj [("res", JVal.arr [JVal.num 1,
        JVal.str "auth_challenge", JVal.obj [("challenge", JVal.str "abc-123")],
        JVal.num 1000])])))
      = some (JVal.str "abc-123") ∧
    clientExtractChallenge
      (ExtractInput.strIn "y" (some (JVal.obj [("res", JVal.arr [JVal.num 1,
        JVal.str "auth_challenge", JVal.obj [("challenge", JVal.str "abc-123")],
        JVal.num 1000])])))
      = some (JVal.str "abc-123") :=
  (C3_extractor_amended _).1 (JVal.str "abc-123") rfl

/-! ## Frame lemmas for the event handlers -/

lemma setStatus_pendingRequests (s : ClientState) (st : WSStatus) :
    (setStatus s st).pendingRequests = s.pendingRequests := rfl

lemma settledFor_setStatus (id : Int) (s : ClientState) (st : WSStatus) :
    settledFor id (setStatus s st) = settledFor id s := by
  simp [settledFor, setStatus, settlementsOf_append, settlementsOf_notify]

lemma handleReconnect_pendingRequests (s : ClientState) :
    (handleReconnect s).pendingRequests = s.pendingRequests := by
  by_cases h : s.maxReconnectAttempts ≤ s.reconnectAttempts <;>
    simp [handleReconnect, h, setStatus]

lemma settledFor_handleReconnect (id : Int) (s : ClientState) :
    settledFor id (handleReconnect s) = settledFor id s := by
  by_cases h : s.maxReconnectAttempts ≤ s.reconnectAttempts <;>
    simp [handleReconnect, h, setStatus, settledFor, settlementsOf_append,
      settlementsOf_notify, settlementsOf]

lemma onCloseHandler_pendingRequests (s : ClientState) :
    (onCloseHandler s).pendingRequests = s.pendingRequests := by
  simp [onCloseHandler, handleReconnect_pendingRequests, setStatus]

lemma settledFor_onCloseHandler (id : Int) (s : ClientState) :
    settledFor id (onCloseHandler s) = settledFor id s := by
  have h1 : settledFor id (onCloseHandler s) =
      settledFor id { setStatus s WSStatus.disconnected with pingActive := false } := by
    simp [onCloseHandler]
    exact settledFor_handleReconnect id _
  rw [h1]
  have h2 : settledFor id { setStatus s WSStatus.disconnected with pingActive := false } =
      settledFor id (setStatus s WSStatus.disconnected) := rfl
  rw [h2, settledFor_setStatus]

lemma close_pendingRequests (s : ClientState) :
    (close s).pendingRequests = s.pendingRequests := by
  by_cases h : s.wsPresent <;> simp [close, h, setStatus]

lemma settledFor_close (id : Int) (s : ClientState) :
    settledFor id (close s) = settledFor id s := by
  by_cases h : s.wsPresent <;>
    simp [close, h, setStatus, settledFor, settlementsOf_append, settlementsOf]

/-! ## C9: transport loss does not bulk-reject pending requests -/

/-- C9: neither the socket close handler nor an explicit `close()` touches the
pending-request table or settles anything; a pending request survives the
transport loss and is settled by its own timeout afterwards. -/
theorem C9_transport_close_preserves_pending (s : ClientState) (id : Int) :
    (onCloseHandler s).pendingRequests = s.pendingRequests ∧
    (close s).pendingRequests = s.pendingRequests ∧
    settledFor id (onCloseHandler s) = settledFor id s ∧
    settledFor id (close s) = settledFor id s ∧
    (id ∈ s.pendingRequests →
      (requestTimeoutFire (onCloseHandler s) id).pendingRequests =
        s.pendingRequests.erase id ∧
      settledFor id (requestTimeoutFire (onCloseHandler s) id) =
        settledFor id s ++ [Settlement.rejectedTimeout]) := by
  refine ⟨onCloseHandler_pendingRequests s, close_pendingRequests s,
    settledFor_onCloseHandler id s, settledFor_close id s, fun hmem => ?_⟩
  have hm : id ∈ (onCloseHandler s).pendingRequests := by
    rw [onCloseHandler_pendingRequests]; exact hmem
  constructor
  · simp [requestTimeoutFire, hm, hmem, onCloseHandler_pendingRequests]
  · simp only [requestTimeoutFire, hm, if_pos]
    simp [settledFor, settlementsOf_append, settlementsOf_settle]
    exact settledFor_onCloseHandler id s

/-- Witness for C9 at a concrete state with one pending request. -/
theorem C9_witness :
    (requestTimeoutFire (onCloseHandler
        { initClient with pendingRequests := [1], nextRequestId := 2 }) 1).pendingRequests =
      ([1] : List Int).erase 1 ∧
    settledFor 1 (requestTimeoutFire (onCloseHandler
        { initClient with pendingRequests := [1], nextRequestId := 2 }) 1) =
      settledFor 1 { initClient with pendingRequests := [1], nextRequestId := 2 } ++
        [Settlement.rejectedTimeout] :=
  (C9_transport_close_preserves_pending
    { initClient with pendingRequests := [1], nextRequestId := 2 } 1).2.2.2.2
    (by decide)

/-! ## C7: behaviour after an explicit close() -/

/-- A client that has finished the handshake: connected with a live socket. -/
def connectedState : ClientState :=
  { initClient with status := WSStatus.connected, wsPresent := true, wsOpen := true }

/-- Counterexample to C7: after an explicit `close()` the reconnect timer is
indeed cancelled, but the socket close event that `ws.close()` triggers still
runs the reconnect handler, which schedules a reconnect timer; when that timer
fires, a fresh automatic connection attempt is initiated — all without any new
explicit connect call. -/
theorem C7_counterexample :
    (close connectedState).reconnectTimer = none ∧
    (onCloseHandler (close connectedState)).reconnectTimer = some 1000 ∧
    (onCloseHandler (close connectedState)).status = WSStatus.reconnecting ∧
    (reconnectTimerFire (onCloseHandler (close connectedState))).status =
      WSStatus.connecting ∧
    (reconnectTimerFire (onCloseHandler (close connectedState))).wsPresent = true :=
  ⟨rfl, rfl, rfl, rfl, rfl⟩

/-- C7 as amended: `close()` cancels any pending reconnect timer, drops the
transport and notifies `disconnected`; however the transport's asynchronous close
event then still runs the reconnect handler, so while reconnect attempts remain
an automatic reconnection is scheduled (and later initiated) with no new explicit
connect call. -/
theorem C7_close_amended (s : ClientState)
    (h : s.reconnectAttempts < s.maxReconnectAttempts) :
    (close s).reconnectTimer = none ∧
    (close s).wsPresent = false ∧
    (close s).status = WSStatus.disconnected ∧
    (onCloseHandler (close s)).reconnectTimer =
      some (s.reconnectDelay * (s.reconnectAttempts + 1)) ∧
    (onCloseHandler (close s)).status = WSStatus.reconnecting := by
  have h1 : ¬ s.maxReconnectAttempts ≤ s.reconnectAttempts := by omega
  by_cases hw : s.wsPresent <;>
    simp [close, onCloseHandler, handleReconnect, setStatus, hw, h1]

/-- Witness for the amended C7 at the connected state. -/
theorem C7_witness :
    (close connectedState).reconnectTimer = none ∧
    (close connectedState).wsPresent = false ∧
    (close connectedState).status = WSStatus.disconnected ∧
    (onCloseHandler (close connectedState)).reconnectTimer = some (1000 * (0 + 1)) ∧
    (onCloseHandler (close connectedState)).status = WSStatus.reconnecting :=
  C7_close_amended connectedState (by decide)

/-! ## C10: sendRequest can itself change the observable status -/

/-- C10: a `sendRequest` call on an open socket while the client is still in the
`authenticating` status first mutates the status to `connected` — broadcasting
the change to every registered status observer — and only then transmits the
request frame: the notification effect precedes the send effect in the log. -/
theorem C10_sendRequest_fixes_status (s : ClientState) (method : String)
    (hp : s.wsPresent = true) (ho : s.wsOpen = true)
    (hs : s.status = WSStatus.authenticating) :
    sendRequest s method true =
      .ok ({ s with
              status := WSStatus.connected
              nextRequestId := s.nextRequestId + 1
              pendingRequests := s.nextRequestId :: s.pendingRequests
              effects := s.effects ++ [Effect.notifyStatus WSStatus.connected] ++
                [Effect.wsSend (Frame.request s.nextRequestId method)] },
            s.nextRequestId) := by
  simp [sendRequest, hp, ho, hs, setStatus]

/-- A client that has just opened its socket and entered the handshake. -/
def authReadyState : ClientState := onOpenHandler (connect initClient)

/-- Witness for C10 at the just-authenticating state. -/
theorem C10_witness :
    sendRequest authReadyState "get_channels" true =
      .ok ({ authReadyState with
              status := WSStatus.connected
              nextRequestId := authReadyState.nextRequestId + 1
              pendingRequests := authReadyState.nextRequestId ::
                authReadyState.pendingRequests
              effects := authReadyState.effects ++
                [Effect.notifyStatus WSStatus.connected] ++
                [Effect.wsSend (Frame.request authReadyState.nextRequestId "get_channels")] },
            authReadyState.nextRequestId) :=
  C10_sendRequest_fixes_status authReadyState "get_channels" rfl rfl rfl

/-! ## C2: a response resolves only the matching pending request -/

lemma handleMessage_res_match (s : ClientState) (message : JVal) (xs : List JVal)
    (K : Int)
    (hres : jsField message "res" = some (JVal.arr xs))
    (hlen : 3 ≤ xs.length)
    (hK : xs[0]? = some (JVal.num K))
    (herr : jsField message "err" = none)
    (hmem : K ∈ s.pendingRequests) :
    (handleMessage s message).pendingRequests = s.pendingRequests.erase K ∧
    (handleMessage s message).effects =
      s.effects ++ [Effect.settle K (Settlement.resolved (xs.getD 2 JVal.null))] := by
  rcases ht : jsField message "type" with _ | w
  · simp [handleMessage, handleResPart, handleErrPart, handleChannelPart, hres, hlen, hK, herr, hmem, ht]
  · cases w <;> simp [handleMessage, handleResPart, handleErrPart, handleChannelPart, hres, hlen, hK, herr, hmem, ht, apply_ite]

lemma handleMessage_res_miss (s : ClientState) (message : JVal) (xs : List JVal)
    (K : Int)
    (hres : jsField message "res" = some (JVal.arr xs))
    (hK : xs[0]? = some (JVal.num K))
    (herr : jsField message "err" = none)
    (hmem : K ∉ s.pendingRequests) :
    (handleMessage s message).pendingRequests = s.pendingRequests ∧
    (handleMessage s message).effects = s.effects := by
  rcases ht : jsField message "type" with _ | w
  · by_cases hlen : 3 ≤ xs.length <;>
      simp [handleMessage, handleResPart, handleErrPart, handleChannelPart, hres, hlen, hK, herr, hmem, ht]
  · cases w <;> by_cases hlen : 3 ≤ xs.length <;>
      simp [handleMessage, handleResPart, handleErrPart, handleChannelPart, hres, hlen, hK, herr, hmem, ht, apply_ite]

/-- C2: an incoming response envelope with leading identifier `K` settles (at
most) the pending request `K`, resolving it with the payload element of the
envelope; a call with any other identifier `j` is neither settled nor removed
from the pending table, regardless of arrival order. -/
theorem C2_response_resolves_only_matching (s : ClientState) (message : JVal)
    (xs : List JVal) (K j : Int)
    (hres : jsField message "res" = some (JVal.arr xs))
    (hlen : 3 ≤ xs.length)
    (hK : xs[0]? = some (JVal.num K))
    (herr : jsField message "err" = none) :
    (j ≠ K → settledFor j (handleMessage s message) = settledFor j s ∧
      (j ∈ (handleMessage s message).pendingRequests ↔ j ∈ s.pendingRequests)) ∧
    (K ∈ s.pendingRequests →
      settledFor K (handleMessage s message) =
        settledFor K s ++ [Settlement.resolved (xs.getD 2 JVal.null)] ∧
      (handleMessage s message).pendingRequests = s.pendingRequests.erase K) := by
  constructor
  · intro hj
    by_cases hmem : K ∈ s.pendingRequests
    · obtain ⟨hp, he⟩ := handleMessage_res_match s message xs K hres hlen hK herr hmem
      have hKj : ¬ K = j := fun h => hj h.symm
      constructor
      · simp [settledFor, he, settlementsOf_append, settlementsOf_settle, hKj]
      · rw [hp]
        exact List.mem_erase_of_ne hj
    · obtain ⟨hp, he⟩ := handleMessage_res_miss s message xs K hres hK herr hmem
      rw [hp]
      simp [settledFor, he]
  · intro hmem
    obtain ⟨hp, he⟩ := handleMessage_res_match s message xs K hres hlen hK herr hmem
    refine ⟨?_, hp⟩
    simp [settledFor, he, settlementsOf_append, settlementsOf_settle]

/-- Two concurrent requests with identifiers 5 and 6 outstanding. -/
def twoPendingState : ClientState :=
  { initClient with pendingRequests := [5, 6], nextRequestId := 7 }

/-- The response envelope for identifier 6. -/
def responseSix : JVal :=
  .obj [("res", .arr [.num 6, .str "m", .str "payload6", .num 1])]

/-- Witness for C2: the response for identifier 6 resolves request 6 with its
own payload and leaves request 5 untouched. -/
theorem C2_witness :
    settledFor 5 (handleMessage twoPendingState responseSix) =
      settledFor 5 twoPendingState ∧
    settledFor 6 (handleMessage twoPendingState responseSix) =
      settledFor 6 twoPendingState ++ [Settlement.resolved (JVal.str "payload6")] :=
  ⟨((C2_response_resolves_only_matching twoPendingState responseSix
      [JVal.num 6, JVal.str "m", JVal.str "payload6", JVal.num 1] 6 5
      rfl (by decide) rfl rfl).1 (by decide)).1,
   ((C2_response_resolves_only_matching twoPendingState responseSix
      [JVal.num 6, JVal.str "m", JVal.str "payload6", JVal.num 1] 6 5
      rfl (by decide) rfl rfl).2 (by decide)).1⟩

/-! ## C8: handshake happy path -/

/-- The spec scenario auth-challenge envelope
`\x7b"res":[i,"auth_challenge",\x7b"challenge":c\x7d,t]\x7d`. -/
def challengeEnvelope (i : Int) (c : String) (t : Int) : JVal :=
  .obj [("res", .arr [.num i, .str "auth_challenge",
    .obj [("challenge", .str c)], .num t])]

/-- The spec scenario auth-verify acknowledgment envelope
`\x7b"res":[i,"auth_verify",[payload],t]\x7d`. -/
def verifyEnvelope (i : Int) (payload : JVal) (t : Int) : JVal :=
  .obj [("res", .arr [.num i, .str "auth_verify", .arr [payload], .num t])]

/-- A message whose response identifier is not pending, with no error and no
type field, leaves the client state completely unchanged. -/
lemma handleMessage_noop (s : ClientState) (message : JVal) (xs : List JVal)
    (K : Int)
    (hres : jsField message "res" = some (JVal.arr xs))
    (hK : xs[0]? = some (JVal.num K))
    (herr : jsField message "err" = none)
    (htype : jsField message "type" = none)
    (hmem : K ∉ s.pendingRequests) :
    handleMessage s message = s := by
  by_cases hlen : 3 ≤ xs.length <;>
    simp [handleMessage, handleResPart, handleErrPart, handleChannelPart, hres, hK, herr, htype, hmem, hlen]

/-- Receiving the auth-challenge envelope while the handshake listener is
attached sends the verify frame embedding the extracted challenge token. -/
lemma authMessageHandler_challenge (s : ClientState) (raw : String) (i : Int)
    (c : String) (t : Int)
    (hActive : s.authHandlerActive = true)
    (hc0 : c ≠ "")
    (hc1 : c.data.contains openBracket = false)
    (hc2 : c.data.contains openBrace = false) :
    authMessageHandler s raw (some (challengeEnvelope i c t)) =
      { s with effects := s.effects ++ [Effect.wsSend (Frame.authVerify c)] } := by
  have htr : ((c != "") : Bool) = true := by simp [hc0]
  have hm1 : openBracket ∉ c.data := by simpa using hc1
  have hm2 : openBrace ∉ c.data := by simpa using hc2
  have e1 : List.lookup "challenge_message" [("challenge", JVal.str c)] =
      (none : Option JVal) := rfl
  have e2 : List.lookup "challenge" [("challenge", JVal.str c)] = some (JVal.str c) := rfl
  simp [authMessageHandler, challengeEnvelope, createAuthVerifyMessage, signMessage,
    extractChallenge, jsField, jsFieldU, jsOr, jsTruthy, JVal.truthy, hActive, htr,
    hm1, hm2, e1, e2]

/-- Receiving the auth-verify acknowledgment removes the handshake listener,
notifies `connected`, and issues the follow-up `get_channels` request. -/
lemma authMessageHandler_verify (s : ClientState) (raw : String) (i : Int)
    (payload : JVal) (t : Int)
    (hActive : s.authHandlerActive = true)
    (hWs : s.wsPresent = true) (hOpen : s.wsOpen = true) :
    authMessageHandler s raw (some (verifyEnvelope i payload t)) =
      { s with authHandlerActive := false
               status := WSStatus.connected
               nextRequestId := s.nextRequestId + 1
               pendingRequests := s.nextRequestId :: s.pendingRequests
               effects := s.effects ++ [Effect.notifyStatus WSStatus.connected] ++
                 [Effect.wsSend (Frame.request s.nextRequestId "get_channels")] } := by
  simp [authMessageHandler, verifyEnvelope, jsField, sendRequest, setStatus,
    hActive, hWs, hOpen]

/-- C8: in the handshake happy path, after the auth request is sent, the
auth-challenge envelope causes a verify frame embedding the extracted challenge
token to be sent (listener still attached), and the subsequent auth-verify
envelope removes the auth listener and moves the status to connected (the
client then issues its follow-up channels request). -/
theorem C8_handshake_happy_path (s : ClientState) (raw1 raw2 c : String)
    (i1 i2 t1 t2 : Int) (payload2 : JVal)
    (hActive : s.authHandlerActive = true)
    (hWs : s.wsPresent = true) (hOpen : s.wsOpen = true)
    (hc0 : c ≠ "")
    (hc1 : c.data.contains openBracket = false)
    (hc2 : c.data.contains openBrace = false)
    (hi1 : i1 ∉ s.pendingRequests) (hi2 : i2 ∉ s.pendingRequests) :
    incomingMessage s raw1 (some (challengeEnvelope i1 c t1)) =
      { s with effects := s.effects ++ [Effect.wsSend (Frame.authVerify c)] } ∧
    incomingMessage { s with effects := s.effects ++ [Effect.wsSend (Frame.authVerify c)] }
        raw2 (some (verifyEnvelope i2 payload2 t2)) =
      { s with authHandlerActive := false
               status := WSStatus.connected
               nextRequestId := s.nextRequestId + 1
               pendingRequests := s.nextRequestId :: s.pendingRequests
               effects := s.effects ++ [Effect.wsSend (Frame.authVerify c)] ++
                 [Effect.notifyStatus WSStatus.connected] ++
                 [Effect.wsSend (Frame.request s.nextRequestId "get_channels")] } := by
  constructor
  · show authMessageHandler (handleMessage s (challengeEnvelope i1 c t1)) raw1
      (some (challengeEnvelope i1 c t1)) = _
    rw [handleMessage_noop s (challengeEnvelope i1 c t1)
      [JVal.num i1, JVal.str "auth_challenge", JVal.obj [("challenge", JVal.str c)],
        JVal.num t1] i1 (by simp [challengeEnvelope, jsField]) rfl
      (by simp [challengeEnvelope, jsField]) (by simp [challengeEnvelope, jsField]) hi1]
    exact authMessageHandler_challenge s raw1 i1 c t1 hActive hc0 hc1 hc2
  · show authMessageHandler
      (handleMessage { s with effects := s.effects ++ [Effect.wsSend (Frame.authVerify c)] }
        (verifyEnvelope i2 payload2 t2)) raw2 (some (verifyEnvelope i2 payload2 t2)) = _
    rw [handleMessage_noop
      { s with effects := s.effects ++ [Effect.wsSend (Frame.authVerify c)] }
      (verifyEnvelope i2 payload2 t2)
      [JVal.num i2, JVal.str "auth_verify", JVal.arr [payload2], JVal.num t2] i2
      (by simp [verifyEnvelope, jsField]) rfl
      (by simp [verifyEnvelope, jsField]) (by simp [verifyEnvelope, jsField]) hi2]
    rw [authMessageHandler_verify
      { s with effects := s.effects ++ [Effect.wsSend (Frame.authVerify c)] }
      raw2 i2 payload2 t2 hActive hWs hOpen]

/-- Witness for C8 at the spec's concrete scenario: challenge `abc-123`,
identifiers 1, timestamps 1000 and 1001. -/
theorem C8_witness :
    incomingMessage authReadyState "r1" (some (challengeEnvelope 1 "abc-123" 1000)) =
      { authReadyState with
          effects := authReadyState.effects ++
            [Effect.wsSend (Frame.authVerify "abc-123")] } ∧
    incomingMessage
        { authReadyState with
            effects := authReadyState.effects ++
              [Effect.wsSend (Frame.authVerify "abc-123")] }
        "r2" (some (verifyEnvelope 1 (JVal.obj []) 1001)) =
      { authReadyState with
          authHandlerActive := false
          status := WSStatus.connected
          nextRequestId := authReadyState.nextRequestId + 1
          pendingRequests := authReadyState.nextRequestId ::
            authReadyState.pendingRequests
          effects := authReadyState.effects ++
            [Effect.wsSend (Frame.authVerify "abc-123")] ++
            [Effect.notifyStatus WSStatus.connected] ++
            [Effect.wsSend (Frame.request authReadyState.nextRequestId "get_channels")] } :=
  C8_handshake_happy_path authReadyState "r1" "r2" "abc-123" 1 1 1000 1001
    (JVal.obj []) rfl rfl rfl (by decide) (by decide) (by decide)
    (by decide) (by decide)

/-! ## C6: bounded reconnect attempts with linear backoff -/

/-- The delays `base*(start+1), ..., base*(start+count)`. -/
def linearDelays (base start count : Nat) : List Nat :=
  match count with
  | 0 => []
  | n+1 => base * (start + 1) :: linearDelays base (start + 1) n

lemma onCloseHandler_capped (s : ClientState)
    (h : s.maxReconnectAttempts ≤ s.reconnectAttempts) :
    (onCloseHandler s).reconnectAttempts = s.reconnectAttempts ∧
    (onCloseHandler s).maxReconnectAttempts = s.maxReconnectAttempts ∧
    (onCloseHandler s).reconnectDelay = s.reconnectDelay ∧
    reconnectSchedules (onCloseHandler s).effects = reconnectSchedules s.effects ∧
    (onCloseHandler s).status = WSStatus.reconnectFailed := by
  simp [onCloseHandler, handleReconnect, setStatus, h, reconnectSchedules_append,
    reconnectSchedules]

lemma onCloseHandler_scheduling (s : ClientState)
    (h : s.reconnectAttempts < s.maxReconnectAttempts) :
    (onCloseHandler s).reconnectAttempts = s.reconnectAttempts + 1 ∧
    (onCloseHandler s).maxReconnectAttempts = s.maxReconnectAttempts ∧
    (onCloseHandler s).reconnectDelay = s.reconnectDelay ∧
    reconnectSchedules (onCloseHandler s).effects =
      reconnectSchedules s.effects ++ [s.reconnectDelay * (s.reconnectAttempts + 1)] ∧
    (onCloseHandler s).status = WSStatus.reconnecting := by
  have h1 : ¬ s.maxReconnectAttempts ≤ s.reconnectAttempts := by omega
  simp [onCloseHandler, handleReconnect, setStatus, h1, reconnectSchedules_append,
    reconnectSchedules]

lemma wsClose_iterate (k : Nat) : ∀ (s : ClientState),
    s.reconnectAttempts ≤ s.maxReconnectAttempts →
    (onCloseHandler^[k] s).maxReconnectAttempts = s.maxReconnectAttempts ∧
    (onCloseHandler^[k] s).reconnectDelay = s.reconnectDelay ∧
    (onCloseHandler^[k] s).reconnectAttempts =
      min (s.reconnectAttempts + k) s.maxReconnectAttempts ∧
    reconnectSchedules (onCloseHandler^[k] s).effects =
      reconnectSchedules s.effects ++
        linearDelays s.reconnectDelay s.reconnectAttempts
          (min k (s.maxReconnectAttempts - s.reconnectAttempts)) ∧
    (s.maxReconnectAttempts < s.reconnectAttempts + k →
      (onCloseHandler^[k] s).status = WSStatus.reconnectFailed) := by
  induction k with
  | zero =>
    intro s h
    refine ⟨rfl, rfl, by simpa using (by omega : s.reconnectAttempts =
      min (s.reconnectAttempts + 0) s.maxReconnectAttempts), ?_, ?_⟩
    · have h0 : min 0 (s.maxReconnectAttempts - s.reconnectAttempts) = 0 := by omega
      rw [h0]
      simp [linearDelays]
    · intro hlt
      omega
  | succ k ih =>
    intro s h
    rw [Function.iterate_succ_apply]
    by_cases hcap : s.maxReconnectAttempts ≤ s.reconnectAttempts
    · obtain ⟨ha, hm, hd, hs, hst⟩ := onCloseHandler_capped s hcap
      have h2 : (onCloseHandler s).reconnectAttempts ≤
          (onCloseHandler s).maxReconnectAttempts := by rw [ha, hm]; exact h
      obtain ⟨m1, m2, m3, m4, m5⟩ := ih (onCloseHandler s) h2
      refine ⟨by rw [m1, hm], by rw [m2, hd], ?_, ?_, ?_⟩
      · rw [m3, ha, hm]; omega
      · rw [m4, hs, ha, hm, hd]
        have e1 : min k (s.maxReconnectAttempts - s.reconnectAttempts) = 0 := by omega
        have e2 : min (k + 1) (s.maxReconnectAttempts - s.reconnectAttempts) = 0 := by
          omega
        rw [e1, e2]
      · intro hgt
        cases k with
        | zero => simpa using hst
        | succ k2 => exact m5 (by omega)
    · have hlt : s.reconnectAttempts < s.maxReconnectAttempts := by omega
      obtain ⟨ha, hm, hd, hs, hst⟩ := onCloseHandler_scheduling s hlt
      have h2 : (onCloseHandler s).reconnectAttempts ≤
          (onCloseHandler s).maxReconnectAttempts := by rw [ha, hm]; omega
      obtain ⟨m1, m2, m3, m4, m5⟩ := ih (onCloseHandler s) h2
      refine ⟨by rw [m1, hm], by rw [m2, hd], ?_, ?_, ?_⟩
      · rw [m3, ha, hm]; omega
      · rw [m4, hs, ha, hm, hd, List.append_assoc]
        congr 1
        have e1 : min (k + 1) (s.maxReconnectAttempts - s.reconnectAttempts) =
            (min k (s.maxReconnectAttempts - (s.reconnectAttempts + 1))) + 1 := by omega
        rw [e1]
        rfl
      · intro hgt
        exact m5 (by omega)

/-- C6: starting from a fresh attempt counter, `k` consecutive transport
closures without a successful re-authentication schedule at most the configured
maximum number of reconnect attempts, the `N`-th scheduled attempt carrying the
delay `base_delay * N`; once the attempts are exhausted the status transitions
to `reconnect_failed` and no further reconnect is scheduled. -/
theorem C6_reconnect_bounded (s : ClientState) (k : Nat)
    (h0 : s.reconnectAttempts = 0) :
    (onCloseHandler^[k] s).reconnectAttempts = min k s.maxReconnectAttempts ∧
    reconnectSchedules (onCloseHandler^[k] s).effects =
      reconnectSchedules s.effects ++
        linearDelays s.reconnectDelay 0 (min k s.maxReconnectAttempts) ∧
    (s.maxReconnectAttempts < k →
      (onCloseHandler^[k] s).status = WSStatus.reconnectFailed) := by
  obtain ⟨m1, m2, m3, m4, m5⟩ := wsClose_iterate k s (by omega)
  rw [h0] at m3 m4 m5
  refine ⟨by rw [m3]; omega, ?_, fun hlt => m5 (by omega)⟩
  rw [m4]
  have e1 : min k (s.maxReconnectAttempts - 0) = min k s.maxReconnectAttempts := by omega
  rw [e1]

/-- Witness for C6: seven consecutive closures from a connected client with the
default configuration (maximum 5 attempts, base delay 1000 ms) schedule exactly
the delays 1000..5000 and end in `reconnect_failed`. -/
theorem C6_witness :
    (onCloseHandler^[7] connectedState).reconnectAttempts =
      min 7 connectedState.maxReconnectAttempts ∧
    reconnectSchedules (onCloseHandler^[7] connectedState).effects =
      reconnectSchedules connectedState.effects ++
        linearDelays connectedState.reconnectDelay 0
          (min 7 connectedState.maxReconnectAttempts) ∧
    (connectedState.maxReconnectAttempts < 7 →
      (onCloseHandler^[7] connectedState).status = WSStatus.reconnectFailed) :=
  C6_reconnect_bounded connectedState 7 rfl

/-! ## C1: every pending request settles at most once -/

/-- Correlation-observational refinement: same pending table and allocation
counter, with only non-settlement effects appended. -/
def obsEq (s s1 : ClientState) : Prop :=
  s1.pendingRequests = s.pendingRequests ∧
  s1.nextRequestId = s.nextRequestId ∧
  ∃ ext, s1.effects = s.effects ++ ext ∧ settleIds ext = []

lemma obsEq_refl (s : ClientState) : obsEq s s :=
  ⟨rfl, rfl, [], by simp, rfl⟩

lemma obsEq_trans {s s1 s2 : ClientState} (h1 : obsEq s s1) (h2 : obsEq s1 s2) :
    obsEq s s2 := by
  obtain ⟨p1, n1, e1, he1, hs1⟩ := h1
  obtain ⟨p2, n2, e2, he2, hs2⟩ := h2
  refine ⟨p2.trans p1, n2.trans n1, e1 ++ e2, ?_, ?_⟩
  · rw [he2, he1, List.append_assoc]
  · rw [settleIds_append, hs1, hs2]
    rfl

lemma settlementsOf_nil_of_settleIds {ext : List Effect} (h : settleIds ext = [])
    (id : Int) : settlementsOf id ext = [] := by
  have hl := settlementsOf_length id ext
  rw [h] at hl
  simpa using hl

lemma obsEq_facts {s s1 : ClientState} (h : obsEq s s1) :
    (inv s → inv s1) ∧ s1.nextRequestId = s.nextRequestId ∧
    (∀ id, settledFor id s1 = settledFor id s) ∧
    (∀ id, id ∉ s.pendingRequests → id ∉ s1.pendingRequests) := by
  obtain ⟨hp, hn, ext, he, hs⟩ := h
  refine ⟨?_, hn, ?_, ?_⟩
  · rintro ⟨i1, i2, i3, i4⟩
    refine ⟨?_, ?_, ?_, ?_⟩
    · intro id hid
      rw [hp] at hid
      rw [hn]
      exact i1 id hid
    · rw [hp]
      exact i2
    · intro j hj
      rw [he, settleIds_append, hs, List.append_nil] at hj
      obtain ⟨a, b⟩ := i3 j hj
      rw [hn, hp]
      exact ⟨a, b⟩
    · rw [he, settleIds_append, hs, List.append_nil]
      exact i4
  · intro id
    rw [settledFor, settledFor, he, settlementsOf_append,
      settlementsOf_nil_of_settleIds hs, List.append_nil]
  · intro id hid
    rw [hp]
    exact hid

lemma obsEq_setStatus (s : ClientState) (st : WSStatus) : obsEq s (setStatus s st) :=
  ⟨rfl, rfl, [Effect.notifyStatus st], rfl, rfl⟩

lemma obsEq_handleReconnect (s : ClientState) : obsEq s (handleReconnect s) := by
  by_cases h : s.maxReconnectAttempts ≤ s.reconnectAttempts
  · unfold handleReconnect
    rw [if_pos h]
    exact obsEq_setStatus s WSStatus.reconnectFailed
  · refine ⟨?_, ?_, [Effect.notifyStatus WSStatus.reconnecting,
      Effect.scheduleReconnect (s.reconnectDelay * (s.reconnectAttempts + 1))], ?_, rfl⟩ <;>
      simp [handleReconnect, setStatus, h]

lemma obsEq_onCloseHandler (s : ClientState) : obsEq s (onCloseHandler s) := by
  have h1 : obsEq s { setStatus s WSStatus.disconnected with pingActive := false } :=
    ⟨rfl, rfl, [Effect.notifyStatus WSStatus.disconnected], rfl, rfl⟩
  exact obsEq_trans h1 (obsEq_handleReconnect _)

lemma obsEq_close (s : ClientState) : obsEq s (close s) := by
  by_cases h : s.wsPresent <;>
    (refine ⟨?_, ?_, [Effect.notifyStatus WSStatus.disconnected], ?_, rfl⟩ <;>
      simp [close, setStatus, h])

lemma obsEq_connect (s : ClientState) : obsEq s (connect s) := by
  by_cases h : s.status = WSStatus.connected ∨ s.status = WSStatus.connecting
  · unfold connect
    rw [if_pos h]
    exact obsEq_refl s
  · refine ⟨?_, ?_, [Effect.notifyStatus WSStatus.connecting], ?_, rfl⟩ <;>
      simp [connect, setStatus, h]

lemma obsEq_reconnectTimerFire (s : ClientState) : obsEq s (reconnectTimerFire s) := by
  rcases h : s.reconnectTimer with _ | d
  · simp only [reconnectTimerFire, h]
    exact obsEq_refl s
  · simp only [reconnectTimerFire, h]
    have h1 : obsEq s { s with reconnectTimer := none } := ⟨rfl, rfl, [], by simp, rfl⟩
    exact obsEq_trans h1 (obsEq_connect _)

lemma obsEq_onOpenHandler (s : ClientState) : obsEq s (onOpenHandler s) := by
  refine ⟨?_, ?_, [Effect.notifyStatus WSStatus.authenticating,
    Effect.wsSend Frame.authRequest], ?_, rfl⟩ <;>
    simp [onOpenHandler, setStatus]

lemma obsEq_pingTick (s : ClientState) : obsEq s (pingTick s) := by
  by_cases h : s.pingActive = true ∧ s.status = WSStatus.connected ∧ s.wsPresent = true
  · refine ⟨?_, ?_, [Effect.wsSend Frame.ping], ?_, rfl⟩ <;> simp [pingTick, h]
  · unfold pingTick
    rw [if_neg h]
    exact obsEq_refl s

lemma obsEq_authPromiseResolved (s : ClientState) : obsEq s (authPromiseResolved s) :=
  ⟨rfl, rfl, [], by simp [authPromiseResolved], rfl⟩

lemma obsEq_authPromiseRejected (s : ClientState) : obsEq s (authPromiseRejected s) := by
  refine ⟨?_, ?_, [Effect.notifyStatus WSStatus.authFailed], ?_, rfl⟩ <;>
    simp [authPromiseRejected, setStatus]

lemma obsEq_handleChannelPart (s : ClientState) (m : JVal) :
    obsEq s (handleChannelPart s m) := by
  rcases h : jsField m "type" with _ | w
  · simp only [handleChannelPart, h]
    exact obsEq_refl s
  · cases w <;> simp only [handleChannelPart, h] <;> try exact obsEq_refl s
    rename_i t
    by_cases hc : t = "channel_created"
    · rw [if_pos hc]
      exact ⟨rfl, rfl, [], by simp, rfl⟩
    · rw [if_neg hc]
      exact obsEq_refl s

/-- Settling a pending request preserves the correlation invariant. -/
lemma inv_settle (s : ClientState) (K : Int) (o : Settlement)
    (hmem : K ∈ s.pendingRequests) (hinv : inv s) :
    inv { s with pendingRequests := s.pendingRequests.erase K,
                 effects := s.effects ++ [Effect.settle K o] } := by
  obtain ⟨i1, i2, i3, i4⟩ := hinv
  refine ⟨?_, ?_, ?_, ?_⟩
  · intro id hid
    exact i1 id (List.mem_of_mem_erase hid)
  · exact i2.erase K
  · intro j hj
    rw [settleIds_append] at hj
    rcases List.mem_append.mp hj with hj | hj
    · obtain ⟨a, b⟩ := i3 j hj
      exact ⟨a, fun hc => b (List.mem_of_mem_erase hc)⟩
    · have hjK : j = K := by simpa [settleIds] using hj
      subst hjK
      exact ⟨i1 j hmem, i2.not_mem_erase⟩
  · rw [settleIds_append]
    refine List.Nodup.append i4 (by simp [settleIds]) ?_
    intro a ha hb
    have haK : a = K := by simpa [settleIds] using hb
    subst haK
    exact (i3 a ha).2 hmem

lemma settle_frozen (s : ClientState) (K : Int) (o : Settlement) (id : Int)
    (hmem : K ∈ s.pendingRequests) (hid : id ∉ s.pendingRequests) :
    settledFor id { s with pendingRequests := s.pendingRequests.erase K,
                           effects := s.effects ++ [Effect.settle K o] } =
      settledFor id s ∧
    id ∉ (s.pendingRequests.erase K) := by
  have hK : ¬ K = id := fun he => hid (he ▸ hmem)
  constructor
  · simp [settledFor, settlementsOf_append, settlementsOf_settle, hK]
  · exact fun hc => hid (List.mem_of_mem_erase hc)

lemma handleResPart_cases (s : ClientState) (m : JVal) :
    handleResPart s m = s ∨
    ∃ K o, K ∈ s.pendingRequests ∧
      handleResPart s m = { s with pendingRequests := s.pendingRequests.erase K,
                                   effects := s.effects ++ [Effect.settle K o] } := by
  unfold handleResPart
  repeat' split
  all_goals try (left; rfl)
  rename_i hmem
  right
  exact ⟨_, _, hmem, rfl⟩

lemma handleErrPart_cases (s : ClientState) (m : JVal) :
    handleErrPart s m = s ∨
    ∃ K o, K ∈ s.pendingRequests ∧
      handleErrPart s m = { s with pendingRequests := s.pendingRequests.erase K,
                                   effects := s.effects ++ [Effect.settle K o] } := by
  unfold handleErrPart
  repeat' split
  all_goals try (left; rfl)
  rename_i hmem
  right
  exact ⟨_, _, hmem, rfl⟩

/-- Facts format shared by all event handlers: the invariant is preserved, the
allocation counter never decreases, and identifiers that are already settled or
were never pending stay frozen. -/
def stepFacts (s s1 : ClientState) : Prop :=
  (inv s → inv s1) ∧ s.nextRequestId ≤ s1.nextRequestId ∧
  ∀ id, id < s.nextRequestId → id ∉ s.pendingRequests →
    settledFor id s1 = settledFor id s ∧ id ∉ s1.pendingRequests

lemma stepFacts_refl (s : ClientState) : stepFacts s s :=
  ⟨id, le_refl _, fun _ _ h => ⟨rfl, h⟩⟩

lemma stepFacts_of_obsEq {s s1 : ClientState} (h : obsEq s s1) : stepFacts s s1 := by
  obtain ⟨hi, hn, hs, hp⟩ := obsEq_facts h
  exact ⟨hi, le_of_eq hn.symm, fun id _ hid => ⟨hs id, hp id hid⟩⟩

lemma stepFacts_trans {s s1 s2 : ClientState} (h1 : stepFacts s s1)
    (h2 : stepFacts s1 s2) : stepFacts s s2 := by
  obtain ⟨a1, b1, c1⟩ := h1
  obtain ⟨a2, b2, c2⟩ := h2
  refine ⟨fun h => a2 (a1 h), le_trans b1 b2, fun id hlt hid => ?_⟩
  obtain ⟨d1, e1⟩ := c1 id hlt hid
  obtain ⟨d2, e2⟩ := c2 id (lt_of_lt_of_le hlt b1) e1
  exact ⟨d2.trans d1, e2⟩

lemma stepFacts_settle (s : ClientState) (K : Int) (o : Settlement)
    (hmem : K ∈ s.pendingRequests) :
    stepFacts s { s with pendingRequests := s.pendingRequests.erase K,
                         effects := s.effects ++ [Effect.settle K o] } := by
  refine ⟨inv_settle s K o hmem, le_refl _, fun id _ hid => ?_⟩
  exact settle_frozen s K o id hmem hid

lemma stepFacts_handleResPart (s : ClientState) (m : JVal) :
    stepFacts s (handleResPart s m) := by
  rcases handleResPart_cases s m with h | ⟨K, o, hmem, h⟩
  · rw [h]; exact stepFacts_refl s
  · rw [h]; exact stepFacts_settle s K o hmem

lemma stepFacts_handleErrPart (s : ClientState) (m : JVal) :
    stepFacts s (handleErrPart s m) := by
  rcases handleErrPart_cases s m with h | ⟨K, o, hmem, h⟩
  · rw [h]; exact stepFacts_refl s
  · rw [h]; exact stepFacts_settle s K o hmem

lemma pending_mono_handleResPart (s : ClientState) (m : JVal) (id : Int)
    (hid : id ∉ s.pendingRequests) : id ∉ (handleResPart s m).pendingRequests := by
  rcases handleResPart_cases s m with h | ⟨K, o, hmem, h⟩ <;> rw [h]
  · exact hid
  · exact fun hc => hid (List.mem_of_mem_erase hc)

lemma pending_mono_handleErrPart (s : ClientState) (m : JVal) (id : Int)
    (hid : id ∉ s.pendingRequests) : id ∉ (handleErrPart s m).pendingRequests := by
  rcases handleErrPart_cases s m with h | ⟨K, o, hmem, h⟩ <;> rw [h]
  · exact hid
  · exact fun hc => hid (List.mem_of_mem_erase hc)

lemma stepFacts_handleMessage (s : ClientState) (m : JVal) :
    stepFacts s (handleMessage s m) := by
  unfold handleMessage
  refine stepFacts_trans (stepFacts_handleResPart s m) ?_
  exact stepFacts_trans (stepFacts_handleErrPart _ m)
    (stepFacts_of_obsEq (obsEq_handleChannelPart _ m))

lemma stepFacts_requestTimeoutFire (s : ClientState) (rid : Int) :
    stepFacts s (requestTimeoutFire s rid) := by
  unfold requestTimeoutFire
  by_cases h : rid ∈ s.pendingRequests
  · rw [if_pos h]
    exact stepFacts_settle s rid Settlement.rejectedTimeout h
  · rw [if_neg h]
    exact stepFacts_refl s

lemma stepFacts_alloc_push (s : ClientState) (f : Frame) :
    stepFacts s { s with
      nextRequestId := s.nextRequestId + 1
      pendingRequests := s.nextRequestId :: s.pendingRequests
      effects := s.effects ++ [Effect.wsSend f] } := by
  unfold stepFacts inv
  dsimp only
  refine ⟨?_, by omega, fun id hlt hid => ?_⟩
  · rintro ⟨i1, i2, i3, i4⟩
    refine ⟨?_, ?_, ?_, ?_⟩
    · intro id hid
      rcases List.mem_cons.mp hid with rfl | h
      · omega
      · have := i1 id h
        omega
    · refine List.nodup_cons.mpr ⟨?_, i2⟩
      intro hc
      have := i1 _ hc
      omega
    · intro j hj
      rw [settleIds_append] at hj
      have hj2 : j ∈ settleIds s.effects := by simpa [settleIds] using hj
      obtain ⟨a, b⟩ := i3 j hj2
      refine ⟨by omega, ?_⟩
      intro hc
      rcases List.mem_cons.mp hc with rfl | h
      · omega
      · exact b h
    · rw [settleIds_append]
      simpa [settleIds] using i4
  · constructor
    · simp [settledFor, settlementsOf_append, settlementsOf]
    · intro hc
      rcases List.mem_cons.mp hc with rfl | h
      · omega
      · exact hid h

lemma stepFacts_alloc_fail (s : ClientState) :
    stepFacts s { s with
      nextRequestId := s.nextRequestId + 1
      pendingRequests := s.pendingRequests.erase s.nextRequestId
      effects := s.effects ++ [Effect.settle s.nextRequestId
        Settlement.rejectedSendError] } := by
  unfold stepFacts inv
  dsimp only
  refine ⟨?_, by omega, fun id hlt hid => ?_⟩
  · rintro ⟨i1, i2, i3, i4⟩
    refine ⟨?_, ?_, ?_, ?_⟩
    · intro id hid
      have := i1 id (List.mem_of_mem_erase hid)
      omega
    · exact i2.erase _
    · intro j hj
      rw [settleIds_append] at hj
      rcases List.mem_append.mp hj with hj | hj
      · obtain ⟨a, b⟩ := i3 j hj
        exact ⟨by omega, fun hc => b (List.mem_of_mem_erase hc)⟩
      · have hjn : j = s.nextRequestId := by simpa [settleIds] using hj
        subst hjn
        refine ⟨by omega, ?_⟩
        intro hc
        have := i1 _ (List.mem_of_mem_erase hc)
        omega
    · rw [settleIds_append]
      refine List.Nodup.append i4 (by simp [settleIds]) ?_
      intro a ha hb
      have han : a = s.nextRequestId := by simpa [settleIds] using hb
      subst han
      have := (i3 _ ha).1
      omega
  · constructor
    · have hK : ¬ s.nextRequestId = id := by omega
      simp [settledFor, settlementsOf_append, settlementsOf_settle, hK]
    · exact fun hc => hid (List.mem_of_mem_erase hc)

lemma stepFacts_sendRequest (s : ClientState) (m : String) (ok : Bool) :
    ∀ s1 r, sendRequest s m ok = .ok (s1, r) → stepFacts s s1 := by
  intro s1 r hok
  unfold sendRequest at hok
  by_cases hw : s.wsPresent = false
  · rw [if_pos hw] at hok
    cases hok
  · rw [if_neg hw] at hok
    by_cases ho : s.wsOpen = false
    · rw [if_pos ho] at hok
      cases hok
    · rw [if_neg ho] at hok
      dsimp only at hok
      by_cases hst : s.status ≠ WSStatus.connected
      · rw [if_pos hst] at hok
        by_cases hau : s.status = WSStatus.authenticating
        · rw [if_pos hau] at hok
          refine stepFacts_trans (stepFacts_of_obsEq (obsEq_setStatus s WSStatus.connected))
            ?_
          cases ok with
          | true =>
            simp only [if_true] at hok
            cases hok
            exact stepFacts_alloc_push _ _
          | false =>
            simp only [if_false, Bool.false_eq_true] at hok
            cases hok
            exact stepFacts_alloc_fail _
        · rw [if_neg hau] at hok
          cases ok with
          | true =>
            simp only [if_true] at hok
            cases hok
            exact stepFacts_alloc_push _ _
          | false =>
            simp only [if_false, Bool.false_eq_true] at hok
            cases hok
            exact stepFacts_alloc_fail _
      · rw [if_neg hst] at hok
        cases ok with
        | true =>
          simp only [if_true] at hok
          cases hok
          exact stepFacts_alloc_push _ _
        | false =>
          simp only [if_false, Bool.false_eq_true] at hok
          cases hok
          exact stepFacts_alloc_fail _

lemma stepFacts_flagOff (s : ClientState) :
    stepFacts s { s with authHandlerActive := false } :=
  stepFacts_of_obsEq ⟨rfl, rfl, [], by simp, rfl⟩

lemma stepFacts_errCheck (s : ClientState) (o : Option JVal) :
    stepFacts s (match o with
      | some e => if e.truthy then { s with authHandlerActive := false } else s
      | none => s) := by
  rcases o with _ | e
  · exact stepFacts_refl s
  · dsimp only
    by_cases he : e.truthy
    · rw [if_pos he]
      exact stepFacts_flagOff s
    · rw [if_neg he]
      exact stepFacts_refl s

lemma stepFacts_authMessageHandler (s : ClientState) (raw : String)
    (parsed : Option JVal) : stepFacts s (authMessageHandler s raw parsed) := by
  unfold authMessageHandler
  by_cases hA : s.authHandlerActive = false
  · rw [if_pos hA]
    exact stepFacts_refl s
  · rw [if_neg hA]
    rcases parsed with _ | v
    · exact stepFacts_flagOff s
    · cases v with
      | null => exact stepFacts_flagOff s
      | bool b =>
        dsimp only [jsField]
        exact stepFacts_refl s
      | num n =>
        dsimp only [jsField]
        exact stepFacts_refl s
      | str t =>
        dsimp only [jsField]
        exact stepFacts_refl s
      | arr xs =>
        dsimp only
        rcases hres : jsField (JVal.arr xs) "res" with _ | w
        · dsimp only
          exact stepFacts_errCheck s (jsField (JVal.arr xs) "err")
        · cases w <;>
            try (dsimp only; exact stepFacts_errCheck s (jsField (JVal.arr xs) "err"))
          rename_i res
          dsimp only
          rcases h1 : res[1]? with _ | w1
          · dsimp only
            exact stepFacts_errCheck s (jsField (JVal.arr xs) "err")
          · cases w1 <;>
              try (dsimp only; exact stepFacts_errCheck s (jsField (JVal.arr xs) "err"))
            rename_i tag
            dsimp only
            by_cases htag : tag = "auth_challenge"
            · rw [if_pos htag]
              rcases hc : createAuthVerifyMessage raw (some (JVal.arr xs)) with _ | c
              · exact stepFacts_flagOff s
              · exact stepFacts_of_obsEq
                  ⟨rfl, rfl, [Effect.wsSend (Frame.authVerify c)], rfl, rfl⟩
            · rw [if_neg htag]
              by_cases hver : tag = "auth_verify"
              · rw [if_pos hver]
                try dsimp only
                have hpre : stepFacts s
                    (setStatus { s with authHandlerActive := false }
                      WSStatus.connected) :=
                  stepFacts_trans (stepFacts_flagOff s)
                    (stepFacts_of_obsEq (obsEq_setStatus _ _))
                rcases hok : sendRequest (setStatus { s with authHandlerActive := false }
                    WSStatus.connected) "get_channels" true with e | p
                · exact hpre
                · rcases p with ⟨s1, r⟩
                  dsimp only
                  exact stepFacts_trans hpre
                    (stepFacts_sendRequest _ "get_channels" true s1 r hok)
              · rw [if_neg hver]
                exact stepFacts_errCheck s (jsField (JVal.arr xs) "err")
      | obj fs =>
        dsimp only
        rcases hres : jsField (JVal.obj fs) "res" with _ | w
        · dsimp only
          exact stepFacts_errCheck s (jsField (JVal.obj fs) "err")
        · cases w <;>
            try (dsimp only; exact stepFacts_errCheck s (jsField (JVal.obj fs) "err"))
          rename_i res
          dsimp only
          rcases h1 : res[1]? with _ | w1
          · dsimp only
            exact stepFacts_errCheck s (jsField (JVal.obj fs) "err")
          · cases w1 <;>
              try (dsimp only; exact stepFacts_errCheck s (jsField (JVal.obj fs) "err"))
            rename_i tag
            dsimp only
            by_cases htag : tag = "auth_challenge"
            · rw [if_pos htag]
              rcases hc : createAuthVerifyMessage raw (some (JVal.obj fs)) with _ | c
              · exact stepFacts_flagOff s
              · exact stepFacts_of_obsEq
                  ⟨rfl, rfl, [Effect.wsSend (Frame.authVerify c)], rfl, rfl⟩
            · rw [if_neg htag]
              by_cases hver : tag = "auth_verify"
              · rw [if_pos hver]
                try dsimp only
                have hpre : stepFacts s
                    (setStatus { s with authHandlerActive := false }
                      WSStatus.connected) :=
                  stepFacts_trans (stepFacts_flagOff s)
                    (stepFacts_of_obsEq (obsEq_setStatus _ _))
                rcases hok : sendRequest (setStatus { s with authHandlerActive := false }
                    WSStatus.connected) "get_channels" true with e | p
                · exact hpre
                · rcases p with ⟨s1, r⟩
                  dsimp only
                  exact stepFacts_trans hpre
                    (stepFacts_sendRequest _ "get_channels" true s1 r hok)
              · rw [if_neg hver]
                exact stepFacts_errCheck s (jsField (JVal.obj fs) "err")

lemma stepFacts_incomingMessage (s : ClientState) (raw : String)
    (parsed : Option JVal) : stepFacts s (incomingMessage s raw parsed) := by
  unfold incomingMessage
  rcases parsed with _ | v
  · exact stepFacts_authMessageHandler s raw none
  · exact stepFacts_trans (stepFacts_handleMessage s v)
      (stepFacts_authMessageHandler _ raw (some v))

/-- Every single event-handler invocation preserves the correlation invariant,
never decreases the allocation counter, and leaves already-settled (or
never-pending) identifiers untouched. -/
lemma stepFacts_step (s : ClientState) (e : Event) : stepFacts s (step s e) := by
  cases e with
  | callSendRequest m sok =>
    dsimp only [step]
    rcases hok : sendRequest s m sok with e | p
    · exact stepFacts_refl s
    · rcases p with ⟨s1, r⟩
      dsimp only
      exact stepFacts_sendRequest s m sok s1 r hok
  | recv raw parsed => exact stepFacts_incomingMessage s raw parsed
  | fireTimeout id => exact stepFacts_requestTimeoutFire s id
  | wsClosed => exact stepFacts_of_obsEq (obsEq_onCloseHandler s)
  | callClose => exact stepFacts_of_obsEq (obsEq_close s)
  | callConnect => exact stepFacts_of_obsEq (obsEq_connect s)
  | fireReconnect => exact stepFacts_of_obsEq (obsEq_reconnectTimerFire s)
  | wsOpened => exact stepFacts_of_obsEq (obsEq_onOpenHandler s)
  | authResolved => exact stepFacts_of_obsEq (obsEq_authPromiseResolved s)
  | authRejected => exact stepFacts_of_obsEq (obsEq_authPromiseRejected s)
  | pingFire => exact stepFacts_of_obsEq (obsEq_pingTick s)

lemma stepFacts_run (tr : List Event) : ∀ s : ClientState, stepFacts s (run s tr) := by
  induction tr with
  | nil => intro s; exact stepFacts_refl s
  | cons e tl ih =>
    intro s
    exact stepFacts_trans (stepFacts_step s e) (ih (step s e))

/-- C1: over any sequence of events, every identifier is settled at most once —
a pending request is resolved with its response, rejected with a server error,
or rejected by its timeout, but never more than one of these — and a response,
error, or timeout arriving for an identifier that has already been removed from
the pending table settles nothing (late events are no-ops). -/
theorem C1_settlement_at_most_once (s : ClientState) (tr : List Event) (id : Int)
    (hinv : inv s) :
    (settledFor id (run s tr)).length ≤ 1 ∧
    (id < s.nextRequestId → id ∉ s.pendingRequests →
      settledFor id (run s tr) = settledFor id s) := by
  obtain ⟨hi, hn, hf⟩ := stepFacts_run tr s
  constructor
  · have hinv2 := hi hinv
    rw [settledFor, settlementsOf_length]
    exact List.nodup_iff_count_le_one.mp hinv2.2.2.2 id
  · intro h1 h2
    exact (hf id h1 h2).1

instance invDecidable (s : ClientState) : Decidable (inv s) := by
  unfold inv
  infer_instance

/-- The client after connecting, opening, sending one request (identifier 1)
and that request timing out. -/
def timedOutState : ClientState :=
  run initClient [Event.callConnect, Event.wsOpened,
    Event.callSendRequest "get_assets" true, Event.fireTimeout 1]

/-- A late response envelope for the already-timed-out identifier 1. -/
def lateResponse : JVal :=
  .obj [("res", .arr [.num 1, .str "m", .str "late", .num 5])]

/-- Witness for C1: after request 1 has been rejected by its timeout, the late
response for identifier 1 settles nothing. -/
theorem C1_witness :
    (settledFor 1 (run timedOutState [Event.recv "late" (some lateResponse)])).length ≤ 1 ∧
    (1 < timedOutState.nextRequestId → (1 : Int) ∉ timedOutState.pendingRequests →
      settledFor 1 (run timedOutState [Event.recv "late" (some lateResponse)]) =
        settledFor 1 timedOutState) :=
  C1_settlement_at_most_once timedOutState [Event.recv "late" (some lateResponse)] 1
    (by decide)

end NitroliteRPC